import Mathlib

set_option maxRecDepth 100000

/-!
# Verification of the `mras0/deflate` DEFLATE decoder core

This file is a shallow embedding, in Lean 4, of the core of the C++ DEFLATE
decompressor (files `src/bit_stream.h`, `src/huffman_code.h`,
`src/huffman_table.cpp`, `src/huffman_tree.h/.cpp`, `src/deflate.cpp`),
together with proofs about it.

Modelling conventions:

* Machine integers are modelled as `Nat`.  Where the C++ performs `uint16_t`
  arithmetic that can actually wrap (the `next_code` computation in
  `make_huffman_table`), the embedding keeps the `% 65536`; everywhere else
  the values involved stay far below `2^32` (the bit accumulator holds at
  most 23 bits, node indices are at most 576), so plain `Nat` arithmetic
  coincides with the C++ `uint32_t`/`int` arithmetic.
* Failure modes are made explicit through `Except Derr`:
  - a failing C `assert` is modelled as `Derr.assertFail`;
  - an out-of-bounds array access that the C++ performs without any assert
    (undefined behaviour) is modelled as `Derr.oobAccess`;
  - the typed `throw std::runtime_error("Invalid deflate stream")` raised by
    the `invalid` lambda in `deflate` is modelled as `Derr.invalidStream`
    (the lambda also executes `assert(false)` first, which only matters in
    debug builds; we model the thrown typed error);
  - `Derr.fuelOut` is an artefact of making unbounded C++ loops total via
    fuel; fuel bounds are chosen large enough that `fuelOut` is unreachable
    in every run considered by the theorems below.
* C++ `std::vector`/fixed arrays are modelled as Lean `List`s with explicit
  indices; `List.set` beyond the end of the list is a no-op, which is only
  ever relevant past a buffer's capacity, where the C++ is undefined anyway.
-/

/-- Failure modes of the embedded decoder (see the module docstring). -/
inductive Derr where
  | assertFail
  | oobAccess
  | invalidStream
  | fuelOut
deriving DecidableEq, Repr

instance {ε α : Type} [DecidableEq ε] [DecidableEq α] :
    DecidableEq (Except ε α) := fun a b =>
  match a, b with
  | .ok x, .ok y =>
    if h : x = y then .isTrue (by rw [h])
    else .isFalse (fun hc => by cases hc; exact h rfl)
  | .error x, .error y =>
    if h : x = y then .isTrue (by rw [h])
    else .isFalse (fun hc => by cases hc; exact h rfl)
  | .ok _, .error _ => .isFalse (fun hc => by cases hc)
  | .error _, .ok _ => .isFalse (fun hc => by cases hc)

/-! ## Bit-sequence abstraction

`natBits a b` is the list of the low `a` bits of `b`, least-significant
first; `lsbValue` is its inverse.  These are specification-side helpers used
to state what the bit reader produces; they are not part of the embedded
code. -/

/-- The low `a` bits of `b`, least-significant bit first. -/
def natBits : Nat → Nat → List Bool
  | 0, _ => []
  | a + 1, b => b.testBit 0 :: natBits a (b / 2)

/-- Value of an LSB-first bit list. -/
def lsbValue : List Bool → Nat
  | [] => 0
  | b :: r => (if b then 1 else 0) + 2 * lsbValue r

/-- Bits of a byte list, each byte least-significant bit first. -/
def bytesBits (l : List Nat) : List Bool :=
  l.foldr (fun byte acc => natBits 8 byte ++ acc) []

/-! ## `bit_stream` (src/bit_stream.h)

The C++ class holds a pointer/length pair over the input bytes, a read
position `pos_`, a 32-bit accumulator `bits_` and a count `avail_` of
buffered bits.  `ensure_bits` asserts `0 < num_bits ≤ 16` and refills the
accumulator byte by byte, asserting `pos_ < len_` before each read. -/

structure BitStream where
  data : List Nat
  pos : Nat
  bits : Nat
  avail : Nat
deriving Repr, DecidableEq

/-- `bit_stream::bit_stream(begin, end)`. -/
def BitStream.mk0 (data : List Nat) : BitStream := ⟨data, 0, 0, 0⟩

namespace BitStream

/-- The refill loop of `ensure_bits`:
`while (avail_ < num_bits) { assert(pos_ < len_); b := data_[pos_++];
 bits_ |= b << avail_; avail_ += 8; }`.
The loop is made total by structural fuel; `ensure_bits` passes
`numBits`, which always covers the at most `⌈numBits/8⌉` iterations. -/
def ensureLoop (data : List Nat) :
    Nat → Nat → Nat → Nat → Nat → Except Derr (Nat × Nat × Nat)
  | fuel, pos, bits, avail, numBits =>
    if avail < numBits then
      if pos < data.length then
        match fuel with
        | 0 => .error .fuelOut
        | fuel + 1 =>
          ensureLoop data fuel (pos + 1)
            (bits ||| (data.getD pos 0 <<< avail)) (avail + 8) numBits
      else .error .assertFail
    else .ok (pos, bits, avail)

/-- `bit_stream::ensure_bits`. -/
def ensure_bits (bs : BitStream) (numBits : Nat) : Except Derr BitStream :=
  if 0 < numBits ∧ numBits ≤ 16 then
    (ensureLoop bs.data numBits bs.pos bs.bits bs.avail numBits).map
      fun (pos, bits, avail) => { bs with pos, bits, avail }
  else .error .assertFail

/-- `bit_stream::potentially_available_bits`. -/
def potentially_available_bits (bs : BitStream) : Nat :=
  let remaining := bs.data.length - bs.pos
  if remaining ≥ 2 then 16 else bs.avail + 8 * remaining

/-- `bit_stream::peek_bits`. -/
def peek_bits (bs : BitStream) (numBits : Nat) : Except Derr Nat :=
  if 0 < numBits ∧ numBits ≤ bs.avail then
    .ok (bs.bits &&& ((1 <<< numBits) - 1))
  else .error .assertFail

/-- `bit_stream::consume_bits`. -/
def consume_bits (bs : BitStream) (numBits : Nat) : Except Derr BitStream :=
  if 0 < numBits ∧ numBits ≤ bs.avail then
    .ok { bs with avail := bs.avail - numBits, bits := bs.bits >>> numBits }
  else .error .assertFail

/-- `bit_stream::available_bits`. -/
def available_bits (bs : BitStream) : Nat := bs.avail

/-- `bit_stream::get_bits`. -/
def get_bits (bs : BitStream) (numBits : Nat) : Except Derr (Nat × BitStream) := do
  let bs ← bs.ensure_bits numBits
  let res ← bs.peek_bits numBits
  let bs ← bs.consume_bits numBits
  return (res, bs)

/-- `bit_stream::get_bit`. -/
def get_bit (bs : BitStream) : Except Derr (Nat × BitStream) := bs.get_bits 1

/-- The bits still to be delivered by the stream: accumulator bits first
(LSB first), then the bits of the unread bytes. -/
def remBits (bs : BitStream) : List Bool :=
  natBits bs.avail bs.bits ++ bytesBits (bs.data.drop bs.pos)

/-- Well-formedness: the accumulator holds exactly `avail` bits, `avail`
never exceeds 23 (so the 32-bit C++ arithmetic is exact), the read
position is in range, and the underlying bytes are `uint8_t` values. -/
def Inv (bs : BitStream) : Prop :=
  bs.bits < 2 ^ bs.avail ∧ bs.avail ≤ 23 ∧ bs.pos ≤ bs.data.length ∧
    ∀ b ∈ bs.data, b < 256

end BitStream



/-! ## A kernel-reducible array model

The C++ fixed arrays `node nodes[max_nodes]` are modelled as a persistent
binary trie keyed by the 10-bit binary expansion of the index (indices in
this program are below `2 * max_symbols = 576 < 2^10`).  This is purely a
functional model of indexed storage, chosen over `List.set`/`List.getD`
so that the kernel can evaluate the decoder on concrete streams; `get`
and `set` below satisfy exactly the two array axioms proved in Part II. -/

inductive NatMap (α : Type) where
  | leaf
  | node (here : Option α) (l r : NatMap α)
deriving DecidableEq

namespace NatMap

def getB {α : Type} : NatMap α → List Bool → Option α
  | .leaf, _ => none
  | .node h _ _, [] => h
  | .node _ l r, b :: bs => if b then r.getB bs else l.getB bs

def setB {α : Type} : NatMap α → List Bool → α → NatMap α
  | .leaf, [], v => .node (some v) .leaf .leaf
  | .node _ l r, [], v => .node (some v) l r
  | .leaf, b :: bs, v =>
    if b then .node none .leaf (setB .leaf bs v)
    else .node none (setB .leaf bs v) .leaf
  | .node h l r, b :: bs, v =>
    if b then .node h l (r.setB bs v) else .node h (l.setB bs v) r

/-- Index keys: the 10-bit binary expansion. -/
def keyBits (k : Nat) : List Bool := natBits 10 k

def get {α : Type} (m : NatMap α) (k : Nat) : Option α := m.getB (keyBits k)

def set {α : Type} (m : NatMap α) (k : Nat) (v : α) : NatMap α :=
  m.setB (keyBits k) v

end NatMap

/-! ## `output_buffer` (src/deflate.cpp)

`buffer_` is a `std::vector<uint8_t>`; its size is the capacity and
`used_` counts the bytes written so far.  `resize` both preserves the
existing contents and zero-fills the new tail, which the `List` model
reproduces.  Writing through raw pointers past the capacity would be
undefined behaviour in the C++; the corresponding `List.set` is a no-op,
and every theorem below only deals with in-capacity writes. -/

def max_match_length : Nat := 258

structure OutputBuffer where
  buf : List Nat
  /-- `buffer_.size()`; a `std::vector` stores its size, so the model
  caches `buf.length` here (`cap = buf.length` throughout). -/
  cap : Nat
  used : Nat
deriving Repr, DecidableEq

namespace OutputBuffer

def capacity (ob : OutputBuffer) : Nat := ob.cap

def avail (ob : OutputBuffer) : Nat := ob.capacity - ob.used

/-- `output_buffer::put`. -/
def put (ob : OutputBuffer) (c : Nat) : Except Derr OutputBuffer :=
  if ob.used < ob.capacity then
    .ok ⟨ob.buf.set ob.used c, ob.cap, ob.used + 1⟩
  else .error .assertFail

/-- `output_buffer::enlarge`: `resize(size < 32768 ? 32768 : size * 2)`. -/
def enlarge (ob : OutputBuffer) : OutputBuffer :=
  let newSize := if ob.cap < 32768 then 32768 else ob.cap * 2
  ⟨ob.buf ++ List.replicate (newSize - ob.cap) 0, newSize, ob.used⟩

/-- The `memcpy` branch of `copy_match` (`distance ≥ length`): all reads
come from the buffer as it stood before the call. -/
def memcpyFrom (src : List Nat) (buf : List Nat) (dst srcPos n : Nat) :
    List Nat :=
  (List.range n).foldl
    (fun b k => b.set (dst + k) (src.getD (srcPos + k) 0)) buf

/-- The byte-by-byte branch of `copy_match` (`distance < length`): each
read sees the writes made so far, which is what expands runs. -/
def copyForward (buf : List Nat) (dst src : Nat) : Nat → List Nat
  | 0 => buf
  | n + 1 => copyForward (buf.set dst (buf.getD src 0)) (dst + 1) (src + 1) n

/-- `output_buffer::copy_match`.  The first C++ assert reads
`assert(distance <= destination)`; `destination` is not a member of the
class (the identifier only resolves in the duplicated scaffolding of
`main.cpp`), its evident intent being the current write position, so it is
modelled as `distance ≤ used`. -/
def copy_match (ob : OutputBuffer) (distance length : Nat) :
    Except Derr OutputBuffer :=
  if distance ≤ ob.used then
    if distance < 32768 then
      if 3 ≤ length ∧ length ≤ max_match_length then
        .ok (if length ≤ distance then
          ⟨memcpyFrom ob.buf ob.buf ob.used (ob.used - distance) length,
            ob.cap, ob.used + length⟩
        else
          ⟨copyForward ob.buf ob.used (ob.used - distance) length,
            ob.cap, ob.used + length⟩)
      else .error .assertFail
    else .error .assertFail
  else .error .assertFail

/-- `output_buffer::steal_buffer`: `resize(used)` then move out. -/
def steal_buffer (ob : OutputBuffer) : List Nat := ob.buf.take ob.used

end OutputBuffer

/-! ## `huffman_code` and `make_huffman_table`
(src/huffman_code.h, src/huffman_table.cpp)

`make_huffman_table` is modelled as a total function: its two asserts
(`max_bit_length <= max_bits` and `bl_count[0] == 0`) hold at every call
site of the program — the second unconditionally, since the counting loop
skips zero lengths — and the theorems below that rely on length bounds
carry them as hypotheses.  `next_code` is a `std::vector<uint16_t>`, so its
arithmetic is kept modulo 65536. -/

def max_bits : Nat := 15

structure HuffCode where
  len : Nat
  value : Nat
deriving DecidableEq, Repr

/-- `huffman_code::valid()`. -/
def HuffCode.validB (c : HuffCode) : Bool :=
  decide (0 < c.len) && decide (c.len ≤ max_bits) && decide (c.value >>> c.len = 0)

/-- `bl_count[k]`: the number of non-zero lengths equal to `k` (the C++
counting loop only increments for `*bl > 0`, so index 0 stays 0). -/
def blCount (L : List Nat) (k : Nat) : Nat :=
  if k = 0 then 0 else L.count k

/-- `next_code[k]`, via
`for (bits = 1..M) code = uint16((code + bl_count[bits-1]) << 1)`. -/
def nextCode (L : List Nat) : Nat → Nat
  | 0 => 0
  | k + 1 => ((nextCode L k + blCount L k) * 2) % 65536

/-- The assignment loop of `make_huffman_table`: `nc` plays the mutable
`next_code` vector (`next_code[len]++` wraps as `uint16_t`). -/
def assignLoop (nc : Nat → Nat) : List Nat → List HuffCode
  | [] => []
  | l :: rest =>
    if l ≠ 0 then
      ⟨l, nc l⟩ :: assignLoop (fun k => if k = l then (nc l + 1) % 65536 else nc k) rest
    else
      ⟨0, 0⟩ :: assignLoop nc rest

/-- `make_huffman_table` (the zero-length entries keep the
value-initialized `huffman_code{0,0}` of the C++ vector). -/
def make_huffman_table (L : List Nat) : List HuffCode :=
  assignLoop (nextCode L) L

/-- `make_default_huffman_table`: the fixed literal/length code lengths. -/
def make_default_huffman_table : List HuffCode :=
  make_huffman_table (List.replicate 144 8 ++ List.replicate 112 9 ++
    List.replicate 24 7 ++ List.replicate 8 8)

/-- `make_default_huffman_len_table`: 32 five-bit distance codes. -/
def make_default_huffman_len_table : List HuffCode :=
  make_huffman_table (List.replicate 32 5)

/-- Kraft sum at depth 15 over the non-zero lengths, as in the
specification: `Σ 2^(15−len_i)`. -/
def kraftSum (L : List Nat) : Nat :=
  (L.map (fun l => if l = 0 then 0 else 2 ^ (15 - l))).sum

/-! ## `huffman_tree` (src/huffman_tree.h, src/huffman_tree.cpp)

The node arena `nodes[max_nodes]` with its `num_nodes` watermark is
modelled as a list that grows by one `(invalid, invalid)` cell per
`alloc_node`.  Child values `< 288` are symbols, values in
`[288, 576)` are `288 + node index`, and `576` is the unset edge. -/

def maxSymbols : Nat := 288
def maxNodes : Nat := 288
def invalidEdge : Nat := maxSymbols + maxNodes
def maxTableBits : Nat := 9
/-- Fuel for the decode loops.  The C++ `while` terminates because every
interior edge points to a node allocated after its parent, so a walk
visits strictly increasing node indices and takes at most `num_nodes ≤
288` steps; `576` steps of fuel therefore never run out on a tree built
by `add`. -/
def decodeFuel : Nat := 576

structure HuffTree where
  numNodes : Nat
  nodes : NatMap (Nat × Nat)
  tableBits : Nat
  table : List Nat
deriving DecidableEq

/-- `huffman_tree()` default state. -/
def emptyTree : HuffTree := ⟨0, .leaf, 0, []⟩

namespace HuffTree

/-- Raw edge read (no bounds assert): `right ? n.right : n.left`. -/
def branchVal (t : HuffTree) (idx : Nat) (right : Bool) : Nat :=
  let n := (t.nodes.get idx).getD (invalidEdge, invalidEdge)
  if right then n.2 else n.1

/-- `huffman_tree::branch` with its `assert(index < num_nodes)`. -/
def branch (t : HuffTree) (idx : Nat) (right : Bool) : Except Derr Nat :=
  if idx < t.numNodes then .ok (t.branchVal idx right) else .error .assertFail

/-- Writing through the reference returned by `branch`. -/
def setBranch (t : HuffTree) (idx : Nat) (right : Bool) (v : Nat) : HuffTree :=
  let n := (t.nodes.get idx).getD (invalidEdge, invalidEdge)
  { t with nodes := t.nodes.set idx (if right then (n.1, v) else (v, n.2)) }

/-- `huffman_tree::alloc_node`. -/
def allocNode (t : HuffTree) : Except Derr (HuffTree × Nat) :=
  if t.numNodes < maxNodes then
    .ok (⟨t.numNodes + 1, t.nodes.set t.numNodes (invalidEdge, invalidEdge),
      t.tableBits, t.table⟩, t.numNodes + maxSymbols)
  else .error .assertFail

end HuffTree

/-- The bit taken by `consume_bit` from a code with `len` bits left:
`(value & (1 << (len-1))) != 0`. -/
def codeBitTop (len value : Nat) : Bool := value.testBit (len - 1)

/-- `value &= ~mask` for the single-bit mask `1 << (len-1)`; on `Nat`,
clearing one set-or-unset bit is subtraction of `value & mask`. -/
def clearTop (len value : Nat) : Nat := value - (value &&& (1 <<< (len - 1)))

namespace HuffTree

/-- The walk of `huffman_tree::add` (both its interior loop and the final
leaf write), recursing on the remaining code length. -/
def addLoop (t : HuffTree) (symbol idx : Nat) :
    Nat → Nat → Except Derr HuffTree
  | 0, _ => .error .assertFail
  | 1, value => do
    let e ← t.branch idx (codeBitTop 1 value)
    if e = invalidEdge then .ok (t.setBranch idx (codeBitTop 1 value) symbol)
    else .error .assertFail
  | len + 2, value => do
    let b := codeBitTop (len + 2) value
    let e ← t.branch idx b
    if e = invalidEdge then do
      let (t1, newEdge) ← t.allocNode
      let t2 := t1.setBranch idx b newEdge
      t2.addLoop symbol (newEdge - maxSymbols) (len + 1) (clearTop (len + 2) value)
    else if maxSymbols ≤ e then
      t.addLoop symbol (e - maxSymbols) (len + 1) (clearTop (len + 2) value)
    else .error .assertFail

/-- `huffman_tree::add`.  The unconditional `alloc_node()` for an empty
tree cannot fail (`0 < max_nodes`), so it is inlined. -/
def add (t : HuffTree) (symbol : Nat) (c : HuffCode) : Except Derr HuffTree :=
  if symbol < maxSymbols ∧ c.validB = true ∧ c.len ≤ max_bits then
    (if t.numNodes = 0 then
      ⟨1, t.nodes.set 0 (invalidEdge, invalidEdge), t.tableBits, t.table⟩
    else t).addLoop symbol 0 c.len c.value
  else .error .assertFail

/-- The per-index walk of `make_tables`:
`while (len < table_bits && index >= max_symbols) { ++len;
 index = branch(index - max_symbols, val & 1); val >>= 1; }`. -/
def tableWalkLoop (t : HuffTree) (tb : Nat) :
    Nat → Nat → Nat → Nat → Except Derr (Nat × Nat)
  | fuel, len, index, val =>
    if len < tb ∧ maxSymbols ≤ index then
      match fuel with
      | 0 => .error .fuelOut
      | fuel + 1 => do
        let e ← t.branch (index - maxSymbols) (val.testBit 0)
        t.tableWalkLoop tb fuel (len + 1) e (val / 2)
    else .ok (len, index)

end HuffTree

/-- `table_entry::table_entry(len, index)` with its asserts; the packed
representation is `(len << 12) | index`. -/
def mkTableEntry (len index : Nat) : Except Derr Nat :=
  if 0 < len ∧ len ≤ max_bits ∧ index < invalidEdge then
    .ok ((len <<< 12) ||| index)
  else .error .assertFail

/-- `table_entry::len()`. -/
def entryLen (e : Nat) : Nat := e >>> 12

/-- `table_entry::index()`. -/
def entryIndex (e : Nat) : Nat := e &&& 0xfff

namespace HuffTree

/-- One entry of the prefix table. -/
def tableEntryFor (t : HuffTree) (tb i : Nat) : Except Derr Nat := do
  let (len, index) ← t.tableWalkLoop tb tb 0 maxSymbols i
  mkTableEntry len index

/-- The entries for indices `i, i+1, …, i+n-1`, in order. -/
def buildTable (t : HuffTree) (tb : Nat) : Nat → Nat → Except Derr (List Nat)
  | _, 0 => .ok []
  | i, n + 1 => do
    let e ← t.tableEntryFor tb i
    let rest ← t.buildTable tb (i + 1) n
    .ok (e :: rest)

/-- `huffman_tree::make_tables`. -/
def make_tables (t : HuffTree) (tb : Nat) : Except Derr HuffTree :=
  if 0 < tb ∧ tb ≤ maxTableBits ∧ 0 < t.numNodes then do
    let tbl ← t.buildTable tb 0 (2 ^ tb)
    .ok { t with tableBits := tb, table := tbl }
  else .error .assertFail

/-- `huffman_tree::next_from_bits` with its asserts. -/
def next_from_bits (t : HuffTree) (bits numBits : Nat) : Except Derr Nat :=
  if t.tableBits ≠ 0 ∧ t.tableBits ≤ numBits then
    .ok (t.table.getD (bits &&& ((1 <<< t.tableBits) - 1)) 0)
  else .error .assertFail

end HuffTree

/-- The insertion loop of `make_huffman_tree`:
`for i < codes.size(): if (codes[i].len > 0) t.add(i, codes[i])`. -/
def addAll (t : HuffTree) : List HuffCode → Nat → Except Derr HuffTree
  | [], _ => .ok t
  | c :: rest, i =>
    if 0 < c.len then do
      let t' ← t.add i c
      addAll t' rest (i + 1)
    else addAll t rest (i + 1)

/-- `make_huffman_tree` (src/huffman_tree.cpp). -/
def make_huffman_tree (codes : List HuffCode) (table_bits : Nat) :
    Except Derr HuffTree :=
  if codes.length ≤ maxSymbols then do
    let t ← addAll emptyTree codes 0
    t.make_tables table_bits
  else .error .assertFail

/-! ## `decode` and the block engine (src/deflate.cpp) -/

/-- The walk loop of `decode`:
`while (value >= max_symbols) value = t.branch(value - max_symbols, !!bs.get_bit());`
(made total by fuel, see `decodeFuel`). -/
def decodeLoop (t : HuffTree) (fuel value : Nat) (bs : BitStream) :
    Except Derr (Nat × BitStream) :=
  if value < maxSymbols then .ok (value, bs)
  else match fuel with
    | 0 => .error .fuelOut
    | fuel + 1 => do
      let (b, bs') ← bs.get_bit
      let v ← t.branch (value - maxSymbols) (b != 0)
      decodeLoop t fuel v bs'

/-- `decode(t, bs)` (src/deflate.cpp lines 14–27). -/
def decode (t : HuffTree) (bs : BitStream) : Except Derr (Nat × BitStream) := do
  let (value, bs) ←
    (if t.tableBits ≤ bs.potentially_available_bits then do
      let bs ← bs.ensure_bits t.tableBits
      let w ← bs.peek_bits t.tableBits
      let e ← t.next_from_bits w t.tableBits
      let bs ← bs.consume_bits (entryLen e)
      pure (entryIndex e, bs)
    else pure (maxSymbols, bs) : Except Derr (Nat × BitStream))
  decodeLoop t decodeFuel value bs

/-- Specification-side decoder: the pure bit-by-bit walk from the root,
i.e. `decode` without its table fast path. -/
def decodeTreeOnly (t : HuffTree) (bs : BitStream) :
    Except Derr (Nat × BitStream) :=
  decodeLoop t decodeFuel maxSymbols bs

/-- `extra_bits` (29 entries, `int[1+len_max-len_min]`). -/
def lenExtraBits : List Nat :=
  [0, 0, 0, 0, 0, 0, 0, 0, 1, 1, 1, 1, 2, 2] ++
    [2, 2, 3, 3, 3, 3, 4, 4, 4, 4, 5, 5, 5, 5, 0]

/-- `lengths` (29 entries). -/
def lenBase : List Nat :=
  [3, 4, 5, 6, 7, 8, 9, 10, 11, 13, 15, 17, 19, 23] ++
    [27, 31, 35, 43, 51, 59, 67, 83, 99, 115, 131, 163, 195, 227, 258]

/-- `distance_extra_bits`: declared `int[32]` with 30 initializers, so the
last two entries are zero-initialized. -/
def distExtraBits : List Nat :=
  [0, 0, 0, 0, 1, 1, 2, 2, 3, 3, 4, 4, 5, 5] ++
    [6, 6, 7, 7, 8, 8, 9, 9, 10, 10, 11, 11, 12, 12, 13, 13, 0, 0]

/-- `distance_length`: declared `int[32]` with 30 initializers, so the
last two entries are zero-initialized. -/
def distBase : List Nat :=
  [1, 2, 3, 4, 5, 7, 9, 13, 17, 25, 33, 49, 65, 97] ++
    [129, 193, 257, 385, 513, 769, 1025, 1537, 2049, 3073, 4097, 6145,
      8193, 12289, 16385, 24577, 0, 0]

/-- `deflate_inner`.  `ok (true, …)` is the end-of-block return,
`ok (false, …)` is the C++ `return false` (`distance > used`), on which the
caller raises the invalid-stream error.  A literal/length symbol above 285
makes the C++ read `extra_bits[v-257]` past the end of the 29-entry array
(modelled `.oobAccess`); a distance symbol above 31 would likewise
overrun the 32-entry distance tables (not reachable: the distance tree is
built from at most 32 codes). -/
def deflateInner (litTree distTree : HuffTree) :
    Nat → OutputBuffer → BitStream →
    Except Derr (Bool × OutputBuffer × BitStream)
  | 0, _, _ => .error .fuelOut
  | fuel + 1, out0, bs => do
    let out := if out0.avail < max_match_length then out0.enlarge else out0
    let (value, bs) ← decode litTree bs
    if value ≤ 255 then do
      let out ← out.put value
      deflateInner litTree distTree fuel out bs
    else if value = 256 then .ok (true, out, bs)
    else if 285 < value then .error .oobAccess
    else do
      let eb := lenExtraBits.getD (value - 257) 0
      let base := lenBase.getD (value - 257) 0
      let (len, bs) ←
        (if eb ≠ 0 then
          (bs.get_bits eb).map (fun (x, bs) => (base + x, bs))
        else pure (base, bs) : Except Derr (Nat × BitStream))
      if 3 ≤ len ∧ len ≤ max_match_length then do
        let (dist, bs) ← decode distTree bs
        if 31 < dist then .error .oobAccess
        else do
          let deb := distExtraBits.getD dist 0
          let dbase := distBase.getD dist 0
          let (distBytes, bs) ←
            (if deb ≠ 0 then
              (bs.get_bits deb).map (fun (x, bs) => (dbase + x, bs))
            else pure (dbase, bs) : Except Derr (Nat × BitStream))
          if out.used < distBytes then .ok (false, out, bs)
          else do
            let out ← out.copy_match distBytes len
            deflateInner litTree distTree fuel out bs
      else .error .assertFail

/-- The code-length-alphabet order of `read_dynamic_huffman_code_lengths`. -/
def clAlphabetPermute : List Nat :=
  [16, 17, 18, 0, 8, 7, 9, 6, 10, 5, 11, 4, 12, 3, 13, 2, 14, 1, 15]

/-- The HCLEN read loop filling the 19-entry `code_lengths` array. -/
def readClLoop : Nat → List Nat → Nat → Nat → BitStream →
    Except Derr (List Nat × BitStream)
  | fuel, cl, i, hclen, bs =>
    if i < hclen then
      match fuel with
      | 0 => .error .fuelOut
      | fuel + 1 => do
        let (v, bs) ← bs.get_bits 3
        readClLoop fuel (cl.set (clAlphabetPermute.getD i 0) v) (i + 1) hclen bs
    else .ok (cl, bs)

/-- The code-length expansion loop of `read_dynamic_huffman_code_lengths`;
`ok (none, …)` models its `return false`.  The growing `cl2` list stands
for the prefix of the pre-sized vector written so far (`i = cl2.length`). -/
def readLenLoop (clTree : HuffTree) :
    Nat → BitStream → List Nat → Nat →
    Except Derr (Option (List Nat) × BitStream)
  | fuel, bs, cl2, total =>
    if total ≤ cl2.length then .ok (some cl2, bs)
    else match fuel with
    | 0 => .error .fuelOut
    | fuel + 1 => do
      let (clVal, bs) ← decode clTree bs
      let (r, bs) ←
        (if clVal ≤ 15 then pure (some (clVal, 1), bs)
         else if clVal = 16 then
           (if cl2.length = 0 then pure (none, bs)
            else do
              let (x, bs) ← bs.get_bits 2
              pure (some (cl2.getD (cl2.length - 1) 0, 3 + x), bs))
         else if clVal = 17 then do
           let (x, bs) ← bs.get_bits 3
           pure (some (0, 3 + x), bs)
         else if clVal = 18 then do
           let (x, bs) ← bs.get_bits 7
           pure (some (0, 11 + x), bs)
         else pure (none, bs) : Except Derr (Option (Nat × Nat) × BitStream))
      match r with
      | none => .ok (none, bs)
      | some (v, count) =>
        if max_bits < v ∨ total < count + cl2.length then .ok (none, bs)
        else readLenLoop clTree fuel bs (cl2 ++ List.replicate count v) total

/-- `read_dynamic_huffman_code_lengths`. -/
def readDynamic (fuel : Nat) (bs : BitStream) :
    Except Derr (Option (List Nat × Nat) × BitStream) := do
  let (hlitRaw, bs) ← bs.get_bits 5
  let hlit := 257 + hlitRaw
  let (hdistRaw, bs) ← bs.get_bits 5
  let hdist := 1 + hdistRaw
  let (hclenRaw, bs) ← bs.get_bits 4
  let hclen := 4 + hclenRaw
  let (cl, bs) ← readClLoop hclen (List.replicate 19 0) 0 hclen bs
  let clTree ← make_huffman_tree (make_huffman_table cl) 7
  let (r, bs) ← readLenLoop clTree fuel bs [] (hlit + hdist)
  match r with
  | none => .ok (none, bs)
  | some cl2 => .ok (some (cl2, hlit), bs)

/-! The two process-scoped fixed-Huffman decoders (the `static const`
locals of `deflate`).  The C++ computes them once per process via
`make_huffman_tree`; the model holds the materialized values (so that the
kernel does not rebuild the 288-symbol tree inside every theorem about
`deflate`), and the theorems `fixed_lit_tree_spec` and
`fixed_dist_tree_spec` in Part II verify by kernel evaluation that they
are exactly `make_huffman_tree make_default_huffman_table 9` and
`make_huffman_tree make_default_huffman_len_table 5`. -/

def fixedLitTreeData : HuffTree :=
  ⟨287, (.node (none) (.node (none) (.node (none) (.node (none) (.node (none) (.node (none) (.node (none) (.node (none) (.node (none) (.node (none) (.node (some (289, 370)) .leaf .leaf) .leaf) (.node (none) (.node (some (252, 253)) .leaf .leaf) .leaf)) (.node (none) (.node (none) (.node (some (417, 418)) .leaf .leaf) .leaf) .leaf)) (.node (none) (.node (none) (.node (none) (.node (some (353, 354)) .leaf .leaf) .leaf) .leaf) (.node (none) (.node (none) (.node (some (481, 482)) .leaf .leaf) .leaf) .leaf))) (.node (none) (.node (none) (.node (none) (.node (none) (.node (some (26, 27)) .leaf .leaf) .leaf) .leaf) (.node (none) (.node (none) (.node (some (154, 155)) .leaf .leaf) .leaf) .leaf)) (.node (none) (.node (none) (.node (none) (.node (some (90, 91)) .leaf .leaf) .leaf) .leaf) (.node (none) (.node (none) (.node (some (513, 514)) .leaf .leaf) .leaf) .leaf)))) (.node (none) (.node (none) (.node (none) (.node (none) (.node (none) (.node (some (305, 306)) .leaf .leaf) .leaf) (.node (none) (.node (some (270, 271)) .leaf .leaf) .leaf)) (.node (none) (.node (none) (.node (some (140, 141)) .leaf .leaf) .leaf) .leaf)) (.node (none) (.node (none) (.node (none) (.node (some (76, 77)) .leaf .leaf) .leaf) .leaf) (.node (none) (.node (none) (.node (some (202, 203)) .leaf .leaf) .leaf) .leaf))) (.node (none) (.node (none) (.node (none) (.node (none) (.node (some (337, 338)) .leaf .leaf) .leaf) .leaf) (.node (none) (.node (none) (.node (some (170, 171)) .leaf .leaf) .leaf) .leaf)) (.node (none) (.node (none) (.node (none) (.node (some (401, 402)) .leaf .leaf) .leaf) .leaf) (.node (none) (.node (none) (.node (some (529, 530)) .leaf .leaf) .leaf) .leaf))))) (.node (none) (.node (none) (.node (none) (.node (none) (.node (none) (.node (none) (.node (some (2, 3)) .leaf .leaf) .leaf) (.node (none) (.node (some (260, 261)) .leaf .leaf) .leaf)) (.node (none) (.node (none) (.node (some (425, 426)) .leaf .leaf) .leaf) .leaf)) (.node (none) (.node (none) (.node (none) (.node (some (361, 362)) .leaf .leaf) .leaf) .leaf) (.node (none) (.node (none) (.node (some (192, 193)) .leaf .leaf) .leaf) .leaf))) (.node (none) (.node (none) (.node (none) (.node (none) (.node (some (34, 35)) .leaf .leaf) .leaf) .leaf) (.node (none) (.node (none) (.node (some (160, 161)) .leaf .leaf) .leaf) .leaf)) (.node (none) (.node (none) (.node (none) (.node (some (98, 99)) .leaf .leaf) .leaf) .leaf) (.node (none) (.node (none) (.node (some (226, 227)) .leaf .leaf) .leaf) .leaf)))) (.node (none) (.node (none) (.node (none) (.node (none) (.node (none) (.node (some (16, 17)) .leaf .leaf) .leaf) (.node (none) (.node (some (569, 572)) .leaf .leaf) .leaf)) (.node (none) (.node (none) (.node (some (144, 145)) .leaf .leaf) .leaf) .leaf)) (.node (none) (.node (none) (.node (none) (.node (some (80, 81)) .leaf .leaf) .leaf) .leaf) (.node (none) (.node (none) (.node (some (210, 211)) .leaf .leaf) .leaf) .leaf))) (.node (none) (.node (none) (.node (none) (.node (none) (.node (some (50, 51)) .leaf .leaf) .leaf) .leaf) (.node (none) (.node (none) (.node (some (178, 179)) .leaf .leaf) .leaf) .leaf)) (.node (none) (.node (none) (.node (none) (.node (some (114, 115)) .leaf .leaf) .leaf) .leaf) (.node (none) (.node (none) (.node (some (537, 538)) .leaf .leaf) .leaf) .leaf)))))) (.node (none) (.node (none) (.node (none) (.node (none) (.node (none) (.node (none) (.node (none) (.node (some (293, 300)) .leaf .leaf) .leaf) (.node (none) (.node (some (549, 550)) .leaf .leaf) .leaf)) (.node (none) (.node (none) (.node (some (421, 424)) .leaf .leaf) .leaf) .leaf)) (.node (none) (.node (none) (.node (none) (.node (some (357, 360)) .leaf .leaf) .leaf) .leaf) (.node (none) (.node (none) (.node (some (485, 500)) .leaf .leaf) .leaf) .leaf))) (.node (none) (.node (none) (.node (none) (.node (none) (.node (some (325, 332)) .leaf .leaf) .leaf) .leaf) (.node (none) (.node (none) (.node (some (453, 468)) .leaf .leaf) .leaf) .leaf)) (.node (none) (.node (none) (.node (none) (.node (some (389, 396)) .leaf .leaf) .leaf) .leaf) (.node (none) (.node (none) (.node (some (517, 524)) .leaf .leaf) .leaf) .leaf)))) (.node (none) (.node (none) (.node (none) (.node (none) (.node (none) (.node (some (309, 324)) .leaf .leaf) .leaf) (.node (none) (.node (some (274, 275)) .leaf .leaf) .leaf)) (.node (none) (.node (none) (.node (some (568, 437)) .leaf .leaf) .leaf) .leaf)) (.node (none) (.node (none) (.node (none) (.node (some (373, 388)) .leaf .leaf) .leaf) .leaf) (.node (none) (.node (none) (.node (some (501, 508)) .leaf .leaf) .leaf) .leaf))) (.node (none) (.node (none) (.node (none) (.node (none) (.node (some (341, 348)) .leaf .leaf) .leaf) .leaf) (.node (none) (.node (none) (.node (some (469, 476)) .leaf .leaf) .leaf) .leaf)) (.node (none) (.node (none) (.node (none) (.node (some (405, 412)) .leaf .leaf) .leaf) .leaf) (.node (none) (.node (none) (.node (some (533, 536)) .leaf .leaf) .leaf) .leaf))))) (.node (none) (.node (none) (.node (none) (.node (none) (.node (none) (.node (none) (.node (some (301, 304)) .leaf .leaf) .leaf) (.node (none) (.node (some (264, 265)) .leaf .leaf) .leaf)) (.node (none) (.node (none) (.node (some (429, 430)) .leaf .leaf) .leaf) .leaf)) (.node (none) (.node (none) (.node (none) (.node (some (365, 366)) .leaf .leaf) .leaf) .leaf) (.node (none) (.node (none) (.node (some (198, 199)) .leaf .leaf) .leaf) .leaf))) (.node (none) (.node (none) (.node (none) (.node (none) (.node (some (333, 336)) .leaf .leaf) .leaf) .leaf) (.node (none) (.node (none) (.node (some (166, 167)) .leaf .leaf) .leaf) .leaf)) (.node (none) (.node (none) (.node (none) (.node (some (397, 400)) .leaf .leaf) .leaf) .leaf) (.node (none) (.node (none) (.node (some (525, 528)) .leaf .leaf) .leaf) .leaf)))) (.node (none) (.node (none) (.node (none) (.node (none) (.node (none) (.node (some (22, 23)) .leaf .leaf) .leaf) (.node (none) (.node (some (573, 574)) .leaf .leaf) .leaf)) (.node (none) (.node (none) (.node (some (150, 151)) .leaf .leaf) .leaf) .leaf)) (.node (none) (.node (none) (.node (none) (.node (some (86, 87)) .leaf .leaf) .leaf) .leaf) (.node (none) (.node (none) (.node (some (509, 512)) .leaf .leaf) .leaf) .leaf))) (.node (none) (.node (none) (.node (none) (.node (none) (.node (some (349, 352)) .leaf .leaf) .leaf) .leaf) (.node (none) (.node (none) (.node (some (477, 480)) .leaf .leaf) .leaf) .leaf)) (.node (none) (.node (none) (.node (none) (.node (some (413, 416)) .leaf .leaf) .leaf) .leaf) (.node (none) (.node (none) (.node (some (541, 542)) .leaf .leaf) .leaf) .leaf))))))) (.node (none) (.node (none) (.node (none) (.node (none) (.node (none) (.node (none) (.node (none) (.node (none) (.node (some (546, 291)) .leaf .leaf) .leaf) (.node (none) (.node (some (547, 554)) .leaf .leaf) .leaf)) (.node (none) (.node (none) (.node (some (126, 127)) .leaf .leaf) .leaf) .leaf)) (.node (none) (.node (none) (.node (none) (.node (some (62, 63)) .leaf .leaf) .leaf) .leaf) (.node (none) (.node (none) (.node (some (190, 191)) .leaf .leaf) .leaf) .leaf))) (.node (none) (.node (none) (.node (none) (.node (none) (.node (some (28, 29)) .leaf .leaf) .leaf) .leaf) (.node (none) (.node (none) (.node (some (156, 157)) .leaf .leaf) .leaf) .leaf)) (.node (none) (.node (none) (.node (none) (.node (some (92, 93)) .leaf .leaf) .leaf) .leaf) (.node (none) (.node (none) (.node (some (222, 223)) .leaf .leaf) .leaf) .leaf)))) (.node (none) (.node (none) (.node (none) (.node (none) (.node (none) (.node (some (14, 15)) .leaf .leaf) .leaf) (.node (none) (.node (some (563, 564)) .leaf .leaf) .leaf)) (.node (none) (.node (none) (.node (some (435, 483)) .leaf .leaf) .leaf) .leaf)) (.node (none) (.node (none) (.node (none) (.node (some (371, 434)) .leaf .leaf) .leaf) .leaf) (.node (none) (.node (none) (.node (some (204, 205)) .leaf .leaf) .leaf) .leaf))) (.node (none) (.node (none) (.node (none) (.node (none) (.node (some (46, 47)) .leaf .leaf) .leaf) .leaf) (.node (none) (.node (none) (.node (some (172, 173)) .leaf .leaf) .leaf) .leaf)) (.node (none) (.node (none) (.node (none) (.node (some (110, 111)) .leaf .leaf) .leaf) .leaf) (.node (none) (.node (none) (.node (some (238, 239)) .leaf .leaf) .leaf) .leaf))))) (.node (none) (.node (none) (.node (none) (.node (none) (.node (none) (.node (none) (.node (some (4, 5)) .leaf .leaf) .leaf) (.node (none) (.node (some (555, 558)) .leaf .leaf) .leaf)) (.node (none) (.node (none) (.node (some (134, 135)) .leaf .leaf) .leaf) .leaf)) (.node (none) (.node (none) (.node (none) (.node (some (70, 71)) .leaf .leaf) .leaf) .leaf) (.node (none) (.node (none) (.node (some (491, 492)) .leaf .leaf) .leaf) .leaf))) (.node (none) (.node (none) (.node (none) (.node (none) (.node (some (36, 37)) .leaf .leaf) .leaf) .leaf) (.node (none) (.node (none) (.node (some (459, 460)) .leaf .leaf) .leaf) .leaf)) (.node (none) (.node (none) (.node (none) (.node (some (100, 101)) .leaf .leaf) .leaf) .leaf) (.node (none) (.node (none) (.node (some (228, 229)) .leaf .leaf) .leaf) .leaf)))) (.node (none) (.node (none) (.node (none) (.node (none) (.node (none) (.node (some (315, 316)) .leaf .leaf) .leaf) (.node (none) (.node (some (280, 281)) .leaf .leaf) .leaf)) (.node (none) (.node (none) (.node (some (443, 444)) .leaf .leaf) .leaf) .leaf)) (.node (none) (.node (none) (.node (none) (.node (some (379, 380)) .leaf .leaf) .leaf) .leaf) (.node (none) (.node (none) (.node (some (212, 213)) .leaf .leaf) .leaf) .leaf))) (.node (none) (.node (none) (.node (none) (.node (none) (.node (some (52, 53)) .leaf .leaf) .leaf) .leaf) (.node (none) (.node (none) (.node (some (180, 181)) .leaf .leaf) .leaf) .leaf)) (.node (none) (.node (none) (.node (none) (.node (some (116, 117)) .leaf .leaf) .leaf) .leaf) (.node (none) (.node (none) (.node (some (246, 247)) .leaf .leaf) .leaf) .leaf)))))) (.node (none) (.node (none) (.node (none) (.node (none) (.node (none) (.node (none) (.node (none) (.node (some (295, 296)) .leaf .leaf) .leaf) (.node (none) (.node (some (258, 259)) .leaf .leaf) .leaf)) (.node (none) (.node (none) (.node (some (128, 129)) .leaf .leaf) .leaf) .leaf)) (.node (none) (.node (none) (.node (none) (.node (some (64, 65)) .leaf .leaf) .leaf) .leaf) (.node (none) (.node (none) (.node (some (487, 490)) .leaf .leaf) .leaf) .leaf))) (.node (none) (.node (none) (.node (none) (.node (none) (.node (some (327, 328)) .leaf .leaf) .leaf) .leaf) (.node (none) (.node (none) (.node (some (455, 458)) .leaf .leaf) .leaf) .leaf)) (.node (none) (.node (none) (.node (none) (.node (some (391, 392)) .leaf .leaf) .leaf) .leaf) (.node (none) (.node (none) (.node (some (519, 520)) .leaf .leaf) .leaf) .leaf)))) (.node (none) (.node (none) (.node (none) (.node (none) (.node (none) (.node (some (311, 314)) .leaf .leaf) .leaf) (.node (none) (.node (some (276, 277)) .leaf .leaf) .leaf)) (.node (none) (.node (none) (.node (some (439, 442)) .leaf .leaf) .leaf) .leaf)) (.node (none) (.node (none) (.node (none) (.node (some (375, 378)) .leaf .leaf) .leaf) .leaf) (.node (none) (.node (none) (.node (some (503, 504)) .leaf .leaf) .leaf) .leaf))) (.node (none) (.node (none) (.node (none) (.node (none) (.node (some (343, 344)) .leaf .leaf) .leaf) .leaf) (.node (none) (.node (none) (.node (some (471, 472)) .leaf .leaf) .leaf) .leaf)) (.node (none) (.node (none) (.node (none) (.node (some (407, 408)) .leaf .leaf) .leaf) .leaf) (.node (none) (.node (none) (.node (some (240, 241)) .leaf .leaf) .leaf) .leaf))))) (.node (none) (.node (none) (.node (none) (.node (none) (.node (none) (.node (none) (.node (some (8, 9)) .leaf .leaf) .leaf) (.node (none) (.node (some (559, 560)) .leaf .leaf) .leaf)) (.node (none) (.node (none) (.node (some (138, 139)) .leaf .leaf) .leaf) .leaf)) (.node (none) (.node (none) (.node (none) (.node (some (74, 75)) .leaf .leaf) .leaf) .leaf) (.node (none) (.node (none) (.node (some (495, 496)) .leaf .leaf) .leaf) .leaf))) (.node (none) (.node (none) (.node (none) (.node (none) (.node (some (40, 41)) .leaf .leaf) .leaf) .leaf) (.node (none) (.node (none) (.node (some (463, 464)) .leaf .leaf) .leaf) .leaf)) (.node (none) (.node (none) (.node (none) (.node (some (104, 105)) .leaf .leaf) .leaf) .leaf) (.node (none) (.node (none) (.node (some (232, 233)) .leaf .leaf) .leaf) .leaf)))) (.node (none) (.node (none) (.node (none) (.node (none) (.node (none) (.node (some (319, 320)) .leaf .leaf) .leaf) (.node (none) (.node (some (286, 287)) .leaf .leaf) .leaf)) (.node (none) (.node (none) (.node (some (447, 448)) .leaf .leaf) .leaf) .leaf)) (.node (none) (.node (none) (.node (none) (.node (some (383, 384)) .leaf .leaf) .leaf) .leaf) (.node (none) (.node (none) (.node (some (216, 217)) .leaf .leaf) .leaf) .leaf))) (.node (none) (.node (none) (.node (none) (.node (none) (.node (some (56, 57)) .leaf .leaf) .leaf) .leaf) (.node (none) (.node (none) (.node (some (184, 185)) .leaf .leaf) .leaf) .leaf)) (.node (none) (.node (none) (.node (none) (.node (some (120, 121)) .leaf .leaf) .leaf) .leaf) (.node (none) (.node (none) (.node (some (250, 251)) .leaf .leaf) .leaf) .leaf)))))))) (.node (none) (.node (none) (.node (none) (.node (none) (.node (none) (.node (none) (.node (none) (.node (none) (.node (none) (.node (some (290, 307)) .leaf .leaf) .leaf) (.node (none) (.node (some (254, 255)) .leaf .leaf) .leaf)) (.node (none) (.node (none) (.node (some (124, 125)) .leaf .leaf) .leaf) .leaf)) (.node (none) (.node (none) (.node (none) (.node (some (60, 61)) .leaf .leaf) .leaf) .leaf) (.node (none) (.node (none) (.node (some (188, 189)) .leaf .leaf) .leaf) .leaf))) (.node (none) (.node (none) (.node (none) (.node (none) (.node (some (322, 323)) .leaf .leaf) .leaf) .leaf) (.node (none) (.node (none) (.node (some (450, 451)) .leaf .leaf) .leaf) .leaf)) (.node (none) (.node (none) (.node (none) (.node (some (386, 387)) .leaf .leaf) .leaf) .leaf) (.node (none) (.node (none) (.node (some (220, 221)) .leaf .leaf) .leaf) .leaf)))) (.node (none) (.node (none) (.node (none) (.node (none) (.node (none) (.node (some (12, 13)) .leaf .leaf) .leaf) (.node (none) (.node (some (562, 565)) .leaf .leaf) .leaf)) (.node (none) (.node (none) (.node (some (142, 143)) .leaf .leaf) .leaf) .leaf)) (.node (none) (.node (none) (.node (none) (.node (some (78, 79)) .leaf .leaf) .leaf) .leaf) (.node (none) (.node (none) (.node (some (498, 499)) .leaf .leaf) .leaf) .leaf))) (.node (none) (.node (none) (.node (none) (.node (none) (.node (some (44, 45)) .leaf .leaf) .leaf) .leaf) (.node (none) (.node (none) (.node (some (466, 467)) .leaf .leaf) .leaf) .leaf)) (.node (none) (.node (none) (.node (none) (.node (some (108, 109)) .leaf .leaf) .leaf) .leaf) (.node (none) (.node (none) (.node (some (236, 237)) .leaf .leaf) .leaf) .leaf))))) (.node (none) (.node (none) (.node (none) (.node (none) (.node (none) (.node (none) (.node (some (298, 299)) .leaf .leaf) .leaf) (.node (none) (.node (some (262, 263)) .leaf .leaf) .leaf)) (.node (none) (.node (none) (.node (some (132, 133)) .leaf .leaf) .leaf) .leaf)) (.node (none) (.node (none) (.node (none) (.node (some (68, 69)) .leaf .leaf) .leaf) .leaf) (.node (none) (.node (none) (.node (some (194, 195)) .leaf .leaf) .leaf) .leaf))) (.node (none) (.node (none) (.node (none) (.node (none) (.node (some (330, 331)) .leaf .leaf) .leaf) .leaf) (.node (none) (.node (none) (.node (some (162, 163)) .leaf .leaf) .leaf) .leaf)) (.node (none) (.node (none) (.node (none) (.node (some (394, 395)) .leaf .leaf) .leaf) .leaf) (.node (none) (.node (none) (.node (some (522, 523)) .leaf .leaf) .leaf) .leaf)))) (.node (none) (.node (none) (.node (none) (.node (none) (.node (none) (.node (some (18, 19)) .leaf .leaf) .leaf) (.node (none) (.node (some (570, 571)) .leaf .leaf) .leaf)) (.node (none) (.node (none) (.node (some (146, 147)) .leaf .leaf) .leaf) .leaf)) (.node (none) (.node (none) (.node (none) (.node (some (82, 83)) .leaf .leaf) .leaf) .leaf) (.node (none) (.node (none) (.node (some (506, 507)) .leaf .leaf) .leaf) .leaf))) (.node (none) (.node (none) (.node (none) (.node (none) (.node (some (346, 347)) .leaf .leaf) .leaf) .leaf) (.node (none) (.node (none) (.node (some (474, 475)) .leaf .leaf) .leaf) .leaf)) (.node (none) (.node (none) (.node (none) (.node (some (410, 411)) .leaf .leaf) .leaf) .leaf) (.node (none) (.node (none) (.node (some (244, 245)) .leaf .leaf) .leaf) .leaf)))))) (.node (none) (.node (none) (.node (none) (.node (none) (.node (none) (.node (none) (.node (none) (.node (some (294, 297)) .leaf .leaf) .leaf) (.node (none) (.node (some (256, 257)) .leaf .leaf) .leaf)) (.node (none) (.node (none) (.node (some (422, 423)) .leaf .leaf) .leaf) .leaf)) (.node (none) (.node (none) (.node (none) (.node (some (358, 359)) .leaf .leaf) .leaf) .leaf) (.node (none) (.node (none) (.node (some (486, 493)) .leaf .leaf) .leaf) .leaf))) (.node (none) (.node (none) (.node (none) (.node (none) (.node (some (326, 329)) .leaf .leaf) .leaf) .leaf) (.node (none) (.node (none) (.node (some (454, 461)) .leaf .leaf) .leaf) .leaf)) (.node (none) (.node (none) (.node (none) (.node (some (390, 393)) .leaf .leaf) .leaf) .leaf) (.node (none) (.node (none) (.node (some (518, 521)) .leaf .leaf) .leaf) .leaf)))) (.node (none) (.node (none) (.node (none) (.node (none) (.node (none) (.node (some (310, 317)) .leaf .leaf) .leaf) (.node (none) (.node (some (566, 567)) .leaf .leaf) .leaf)) (.node (none) (.node (none) (.node (some (438, 445)) .leaf .leaf) .leaf) .leaf)) (.node (none) (.node (none) (.node (none) (.node (some (374, 381)) .leaf .leaf) .leaf) .leaf) (.node (none) (.node (none) (.node (some (502, 505)) .leaf .leaf) .leaf) .leaf))) (.node (none) (.node (none) (.node (none) (.node (none) (.node (some (342, 345)) .leaf .leaf) .leaf) .leaf) (.node (none) (.node (none) (.node (some (470, 473)) .leaf .leaf) .leaf) .leaf)) (.node (none) (.node (none) (.node (none) (.node (some (406, 409)) .leaf .leaf) .leaf) .leaf) (.node (none) (.node (none) (.node (some (534, 535)) .leaf .leaf) .leaf) .leaf))))) (.node (none) (.node (none) (.node (none) (.node (none) (.node (none) (.node (none) (.node (some (302, 303)) .leaf .leaf) .leaf) (.node (none) (.node (some (266, 267)) .leaf .leaf) .leaf)) (.node (none) (.node (none) (.node (some (136, 137)) .leaf .leaf) .leaf) .leaf)) (.node (none) (.node (none) (.node (none) (.node (some (72, 73)) .leaf .leaf) .leaf) .leaf) (.node (none) (.node (none) (.node (some (494, 497)) .leaf .leaf) .leaf) .leaf))) (.node (none) (.node (none) (.node (none) (.node (none) (.node (some (334, 335)) .leaf .leaf) .leaf) .leaf) (.node (none) (.node (none) (.node (some (462, 465)) .leaf .leaf) .leaf) .leaf)) (.node (none) (.node (none) (.node (none) (.node (some (398, 399)) .leaf .leaf) .leaf) .leaf) (.node (none) (.node (none) (.node (some (526, 527)) .leaf .leaf) .leaf) .leaf)))) (.node (none) (.node (none) (.node (none) (.node (none) (.node (none) (.node (some (318, 321)) .leaf .leaf) .leaf) (.node (none) (.node (some (284, 285)) .leaf .leaf) .leaf)) (.node (none) (.node (none) (.node (some (446, 449)) .leaf .leaf) .leaf) .leaf)) (.node (none) (.node (none) (.node (none) (.node (some (382, 385)) .leaf .leaf) .leaf) .leaf) (.node (none) (.node (none) (.node (some (510, 511)) .leaf .leaf) .leaf) .leaf))) (.node (none) (.node (none) (.node (none) (.node (none) (.node (some (350, 351)) .leaf .leaf) .leaf) .leaf) (.node (none) (.node (none) (.node (some (478, 479)) .leaf .leaf) .leaf) .leaf)) (.node (none) (.node (none) (.node (none) (.node (some (414, 415)) .leaf .leaf) .leaf) .leaf) (.node (none) (.node (none) (.node (some (248, 249)) .leaf .leaf) .leaf) .leaf))))))) (.node (none) (.node (none) (.node (none) (.node (none) (.node (none) (.node (none) (.node (none) (.node (none) (.node (some (561, 292)) .leaf .leaf) .leaf) (.node (none) (.node (some (548, 551)) .leaf .leaf) .leaf)) (.node (none) (.node (none) (.node (some (420, 427)) .leaf .leaf) .leaf) .leaf)) (.node (none) (.node (none) (.node (none) (.node (some (356, 363)) .leaf .leaf) .leaf) .leaf) (.node (none) (.node (none) (.node (some (484, 515)) .leaf .leaf) .leaf) .leaf))) (.node (none) (.node (none) (.node (none) (.node (none) (.node (some (30, 31)) .leaf .leaf) .leaf) .leaf) (.node (none) (.node (none) (.node (some (158, 159)) .leaf .leaf) .leaf) .leaf)) (.node (none) (.node (none) (.node (none) (.node (some (94, 95)) .leaf .leaf) .leaf) .leaf) (.node (none) (.node (none) (.node (some (516, 531)) .leaf .leaf) .leaf) .leaf)))) (.node (none) (.node (none) (.node (none) (.node (none) (.node (none) (.node (some (308, 339)) .leaf .leaf) .leaf) (.node (none) (.node (some (272, 273)) .leaf .leaf) .leaf)) (.node (none) (.node (none) (.node (some (436, 452)) .leaf .leaf) .leaf) .leaf)) (.node (none) (.node (none) (.node (none) (.node (some (372, 403)) .leaf .leaf) .leaf) .leaf) (.node (none) (.node (none) (.node (some (206, 207)) .leaf .leaf) .leaf) .leaf))) (.node (none) (.node (none) (.node (none) (.node (none) (.node (some (340, 355)) .leaf .leaf) .leaf) .leaf) (.node (none) (.node (none) (.node (some (174, 175)) .leaf .leaf) .leaf) .leaf)) (.node (none) (.node (none) (.node (none) (.node (some (404, 419)) .leaf .leaf) .leaf) .leaf) (.node (none) (.node (none) (.node (some (532, 539)) .leaf .leaf) .leaf) .leaf))))) (.node (none) (.node (none) (.node (none) (.node (none) (.node (none) (.node (none) (.node (some (6, 7)) .leaf .leaf) .leaf) (.node (none) (.node (some (556, 557)) .leaf .leaf) .leaf)) (.node (none) (.node (none) (.node (some (428, 431)) .leaf .leaf) .leaf) .leaf)) (.node (none) (.node (none) (.node (none) (.node (some (364, 367)) .leaf .leaf) .leaf) .leaf) (.node (none) (.node (none) (.node (some (196, 197)) .leaf .leaf) .leaf) .leaf))) (.node (none) (.node (none) (.node (none) (.node (none) (.node (some (38, 39)) .leaf .leaf) .leaf) .leaf) (.node (none) (.node (none) (.node (some (164, 165)) .leaf .leaf) .leaf) .leaf)) (.node (none) (.node (none) (.node (none) (.node (some (102, 103)) .leaf .leaf) .leaf) .leaf) (.node (none) (.node (none) (.node (some (230, 231)) .leaf .leaf) .leaf) .leaf)))) (.node (none) (.node (none) (.node (none) (.node (none) (.node (none) (.node (some (20, 21)) .leaf .leaf) .leaf) (.node (none) (.node (some (282, 283)) .leaf .leaf) .leaf)) (.node (none) (.node (none) (.node (some (148, 149)) .leaf .leaf) .leaf) .leaf)) (.node (none) (.node (none) (.node (none) (.node (some (84, 85)) .leaf .leaf) .leaf) .leaf) (.node (none) (.node (none) (.node (some (214, 215)) .leaf .leaf) .leaf) .leaf))) (.node (none) (.node (none) (.node (none) (.node (none) (.node (some (54, 55)) .leaf .leaf) .leaf) .leaf) (.node (none) (.node (none) (.node (some (182, 183)) .leaf .leaf) .leaf) .leaf)) (.node (none) (.node (none) (.node (none) (.node (some (118, 119)) .leaf .leaf) .leaf) .leaf) (.node (none) (.node (none) (.node (some (540, 543)) .leaf .leaf) .leaf) .leaf)))))) (.node (none) (.node (none) (.node (none) (.node (none) (.node (none) (.node (none) (.node (none) (.node (some (0, 1)) .leaf .leaf) .leaf) (.node (none) (.node (some (552, 553)) .leaf .leaf) .leaf)) (.node (none) (.node (none) (.node (some (130, 131)) .leaf .leaf) .leaf) .leaf)) (.node (none) (.node (none) (.node (none) (.node (some (66, 67)) .leaf .leaf) .leaf) .leaf) (.node (none) (.node (none) (.node (some (488, 489)) .leaf .leaf) .leaf) .leaf))) (.node (none) (.node (none) (.node (none) (.node (none) (.node (some (32, 33)) .leaf .leaf) .leaf) .leaf) (.node (none) (.node (none) (.node (some (456, 457)) .leaf .leaf) .leaf) .leaf)) (.node (none) (.node (none) (.node (none) (.node (some (96, 97)) .leaf .leaf) .leaf) .leaf) (.node (none) (.node (none) (.node (some (224, 225)) .leaf .leaf) .leaf) .leaf)))) (.node (none) (.node (none) (.node (none) (.node (none) (.node (none) (.node (some (312, 313)) .leaf .leaf) .leaf) (.node (none) (.node (some (278, 279)) .leaf .leaf) .leaf)) (.node (none) (.node (none) (.node (some (440, 441)) .leaf .leaf) .leaf) .leaf)) (.node (none) (.node (none) (.node (none) (.node (some (376, 377)) .leaf .leaf) .leaf) .leaf) (.node (none) (.node (none) (.node (some (208, 209)) .leaf .leaf) .leaf) .leaf))) (.node (none) (.node (none) (.node (none) (.node (none) (.node (some (48, 49)) .leaf .leaf) .leaf) .leaf) (.node (none) (.node (none) (.node (some (176, 177)) .leaf .leaf) .leaf) .leaf)) (.node (none) (.node (none) (.node (none) (.node (some (112, 113)) .leaf .leaf) .leaf) .leaf) (.node (none) (.node (none) (.node (some (242, 243)) .leaf .leaf) .leaf) .leaf))))) (.node (none) (.node (none) (.node (none) (.node (none) (.node (none) (.node (none) (.node (some (10, 11)) .leaf .leaf) .leaf) (.node (none) (.node (some (268, 269)) .leaf .leaf) .leaf)) (.node (none) (.node (none) (.node (some (432, 433)) .leaf .leaf) .leaf) .leaf)) (.node (none) (.node (none) (.node (none) (.node (some (368, 369)) .leaf .leaf) .leaf) .leaf) (.node (none) (.node (none) (.node (some (200, 201)) .leaf .leaf) .leaf) .leaf))) (.node (none) (.node (none) (.node (none) (.node (none) (.node (some (42, 43)) .leaf .leaf) .leaf) .leaf) (.node (none) (.node (none) (.node (some (168, 169)) .leaf .leaf) .leaf) .leaf)) (.node (none) (.node (none) (.node (none) (.node (some (106, 107)) .leaf .leaf) .leaf) .leaf) (.node (none) (.node (none) (.node (some (234, 235)) .leaf .leaf) .leaf) .leaf)))) (.node (none) (.node (none) (.node (none) (.node (none) (.node (none) (.node (some (24, 25)) .leaf .leaf) .leaf) .leaf) (.node (none) (.node (none) (.node (some (152, 153)) .leaf .leaf) .leaf) .leaf)) (.node (none) (.node (none) (.node (none) (.node (some (88, 89)) .leaf .leaf) .leaf) .leaf) (.node (none) (.node (none) (.node (some (218, 219)) .leaf .leaf) .leaf) .leaf))) (.node (none) (.node (none) (.node (none) (.node (none) (.node (some (58, 59)) .leaf .leaf) .leaf) .leaf) (.node (none) (.node (none) (.node (some (186, 187)) .leaf .leaf) .leaf) .leaf)) (.node (none) (.node (none) (.node (none) (.node (some (122, 123)) .leaf .leaf) .leaf) .leaf) (.node (none) (.node (none) (.node (some (544, 545)) .leaf .leaf) .leaf) .leaf))))))))), 9, [28928, 32848, 32784, 33048, 28944, 32880, 32816, 37056, 28936, 32864, 32800, 37024, 32768, 32896, 32832, 37088, 28932,
 32856, 32792, 37008, 28948, 32888, 32824, 37072, 28940, 32872, 32808, 37040, 32776, 32904, 32840, 37104, 28930, 32852,
 32788, 33052, 28946, 32884, 32820, 37064, 28938, 32868, 32804, 37032, 32772, 32900, 32836, 37096, 28934, 32860, 32796,
 37016, 28950, 32892, 32828, 37080, 28942, 32876, 32812, 37048, 32780, 32908, 32844, 37112, 28929, 32850, 32786, 33050,
 28945, 32882, 32818, 37060, 28937, 32866, 32802, 37028, 32770, 32898, 32834, 37092, 28933, 32858, 32794, 37012, 28949,
 32890, 32826, 37076, 28941, 32874, 32810, 37044, 32778, 32906, 32842, 37108, 28931, 32854, 32790, 33054, 28947, 32886,
 32822, 37068, 28939, 32870, 32806, 37036, 32774, 32902, 32838, 37100, 28935, 32862, 32798, 37020, 28951, 32894, 32830,
 37084, 28943, 32878, 32814, 37052, 32782, 32910, 32846, 37116, 28928, 32849, 32785, 33049, 28944, 32881, 32817, 37058,
 28936, 32865, 32801, 37026, 32769, 32897, 32833, 37090, 28932, 32857, 32793, 37010, 28948, 32889, 32825, 37074, 28940,
 32873, 32809, 37042, 32777, 32905, 32841, 37106, 28930, 32853, 32789, 33053, 28946, 32885, 32821, 37066, 28938, 32869,
 32805, 37034, 32773, 32901, 32837, 37098, 28934, 32861, 32797, 37018, 28950, 32893, 32829, 37082, 28942, 32877, 32813,
 37050, 32781, 32909, 32845, 37114, 28929, 32851, 32787, 33051, 28945, 32883, 32819, 37062, 28937, 32867, 32803, 37030,
 32771, 32899, 32835, 37094, 28933, 32859, 32795, 37014, 28949, 32891, 32827, 37078, 28941, 32875, 32811, 37046, 32779,
 32907, 32843, 37110, 28931, 32855, 32791, 33055, 28947, 32887, 32823, 37070, 28939, 32871, 32807, 37038, 32775, 32903,
 32839, 37102, 28935, 32863, 32799, 37022, 28951, 32895, 32831, 37086, 28943, 32879, 32815, 37054, 32783, 32911, 32847,
 37118, 28928, 32848, 32784, 33048, 28944, 32880, 32816, 37057, 28936, 32864, 32800, 37025, 32768, 32896, 32832, 37089,
 28932, 32856, 32792, 37009, 28948, 32888, 32824, 37073, 28940, 32872, 32808, 37041, 32776, 32904, 32840, 37105, 28930,
 32852, 32788, 33052, 28946, 32884, 32820, 37065, 28938, 32868, 32804, 37033, 32772, 32900, 32836, 37097, 28934, 32860,
 32796, 37017, 28950, 32892, 32828, 37081, 28942, 32876, 32812, 37049, 32780, 32908, 32844, 37113, 28929, 32850, 32786,
 33050, 28945, 32882, 32818, 37061, 28937, 32866, 32802, 37029, 32770, 32898, 32834, 37093, 28933, 32858, 32794, 37013,
 28949, 32890, 32826, 37077, 28941, 32874, 32810, 37045, 32778, 32906, 32842, 37109, 28931, 32854, 32790, 33054, 28947,
 32886, 32822, 37069, 28939, 32870, 32806, 37037, 32774, 32902, 32838, 37101, 28935, 32862, 32798, 37021, 28951, 32894,
 32830, 37085, 28943, 32878, 32814, 37053, 32782, 32910, 32846, 37117, 28928, 32849, 32785, 33049, 28944, 32881, 32817,
 37059, 28936, 32865, 32801, 37027, 32769, 32897, 32833, 37091, 28932, 32857, 32793, 37011, 28948, 32889, 32825, 37075,
 28940, 32873, 32809, 37043, 32777, 32905, 32841, 37107, 28930, 32853, 32789, 33053, 28946, 32885, 32821, 37067, 28938,
 32869, 32805, 37035, 32773, 32901, 32837, 37099, 28934, 32861, 32797, 37019, 28950, 32893, 32829, 37083, 28942, 32877,
 32813, 37051, 32781, 32909, 32845, 37115, 28929, 32851, 32787, 33051, 28945, 32883, 32819, 37063, 28937, 32867, 32803,
 37031, 32771, 32899, 32835, 37095, 28933, 32859, 32795, 37015, 28949, 32891, 32827, 37079, 28941, 32875, 32811, 37047,
 32779, 32907, 32843, 37111, 28931, 32855, 32791, 33055, 28947, 32887, 32823, 37071, 28939, 32871, 32807, 37039, 32775,
 32903, 32839, 37103, 28935, 32863, 32799, 37023, 28951, 32895, 32831, 37087, 28943, 32879, 32815, 37055, 32783, 32911,
 32847, 37119]⟩

def fixedDistTreeData : HuffTree :=
  ⟨31, (.node (none) (.node (none) (.node (none) (.node (none) (.node (none) (.node (none) (.node (none) (.node (none) (.node (none) (.node (none) (.node (some (289, 304)) .leaf .leaf) .leaf) .leaf) .leaf) .leaf) .leaf) (.node (none) (.node (none) (.node (none) (.node (none) (.node (none) (.node (some (305, 312)) .leaf .leaf) .leaf) .leaf) .leaf) .leaf) .leaf)) (.node (none) (.node (none) (.node (none) (.node (none) (.node (none) (.node (none) (.node (some (6, 7)) .leaf .leaf) .leaf) .leaf) .leaf) .leaf) .leaf) (.node (none) (.node (none) (.node (none) (.node (none) (.node (none) (.node (some (313, 316)) .leaf .leaf) .leaf) .leaf) .leaf) .leaf) .leaf))) (.node (none) (.node (none) (.node (none) (.node (none) (.node (none) (.node (none) (.node (none) (.node (some (0, 1)) .leaf .leaf) .leaf) .leaf) .leaf) .leaf) .leaf) (.node (none) (.node (none) (.node (none) (.node (none) (.node (none) (.node (some (18, 19)) .leaf .leaf) .leaf) .leaf) .leaf) .leaf) .leaf)) (.node (none) (.node (none) (.node (none) (.node (none) (.node (none) (.node (none) (.node (some (10, 11)) .leaf .leaf) .leaf) .leaf) .leaf) .leaf) .leaf) (.node (none) (.node (none) (.node (none) (.node (none) (.node (none) (.node (some (317, 318)) .leaf .leaf) .leaf) .leaf) .leaf) .leaf) .leaf)))) (.node (none) (.node (none) (.node (none) (.node (none) (.node (none) (.node (none) (.node (none) (.node (none) (.node (some (291, 294)) .leaf .leaf) .leaf) .leaf) .leaf) .leaf) .leaf) (.node (none) (.node (none) (.node (none) (.node (none) (.node (none) (.node (some (307, 308)) .leaf .leaf) .leaf) .leaf) .leaf) .leaf) .leaf)) (.node (none) (.node (none) (.node (none) (.node (none) (.node (none) (.node (none) (.node (some (299, 300)) .leaf .leaf) .leaf) .leaf) .leaf) .leaf) .leaf) (.node (none) (.node (none) (.node (none) (.node (none) (.node (none) (.node (some (24, 25)) .leaf .leaf) .leaf) .leaf) .leaf) .leaf) .leaf))) (.node (none) (.node (none) (.node (none) (.node (none) (.node (none) (.node (none) (.node (none) (.node (some (295, 296)) .leaf .leaf) .leaf) .leaf) .leaf) .leaf) .leaf) (.node (none) (.node (none) (.node (none) (.node (none) (.node (none) (.node (some (20, 21)) .leaf .leaf) .leaf) .leaf) .leaf) .leaf) .leaf)) (.node (none) (.node (none) (.node (none) (.node (none) (.node (none) (.node (none) (.node (some (12, 13)) .leaf .leaf) .leaf) .leaf) .leaf) .leaf) .leaf) (.node (none) (.node (none) (.node (none) (.node (none) (.node (none) (.node (some (30, 31)) .leaf .leaf) .leaf) .leaf) .leaf) .leaf) .leaf))))) (.node (none) (.node (none) (.node (none) (.node (none) (.node (none) (.node (none) (.node (none) (.node (none) (.node (none) (.node (some (290, 297)) .leaf .leaf) .leaf) .leaf) .leaf) .leaf) .leaf) (.node (none) (.node (none) (.node (none) (.node (none) (.node (none) (.node (some (306, 309)) .leaf .leaf) .leaf) .leaf) .leaf) .leaf) .leaf)) (.node (none) (.node (none) (.node (none) (.node (none) (.node (none) (.node (none) (.node (some (298, 301)) .leaf .leaf) .leaf) .leaf) .leaf) .leaf) .leaf) (.node (none) (.node (none) (.node (none) (.node (none) (.node (none) (.node (some (314, 315)) .leaf .leaf) .leaf) .leaf) .leaf) .leaf) .leaf))) (.node (none) (.node (none) (.node (none) (.node (none) (.node (none) (.node (none) (.node (none) (.node (some (2, 3)) .leaf .leaf) .leaf) .leaf) .leaf) .leaf) .leaf) (.node (none) (.node (none) (.node (none) (.node (none) (.node (none) (.node (some (310, 311)) .leaf .leaf) .leaf) .leaf) .leaf) .leaf) .leaf)) (.node (none) (.node (none) (.node (none) (.node (none) (.node (none) (.node (none) (.node (some (302, 303)) .leaf .leaf) .leaf) .leaf) .leaf) .leaf) .leaf) (.node (none) (.node (none) (.node (none) (.node (none) (.node (none) (.node (some (28, 29)) .leaf .leaf) .leaf) .leaf) .leaf) .leaf) .leaf)))) (.node (none) (.node (none) (.node (none) (.node (none) (.node (none) (.node (none) (.node (none) (.node (none) (.node (some (292, 293)) .leaf .leaf) .leaf) .leaf) .leaf) .leaf) .leaf) (.node (none) (.node (none) (.node (none) (.node (none) (.node (none) (.node (some (16, 17)) .leaf .leaf) .leaf) .leaf) .leaf) .leaf) .leaf)) (.node (none) (.node (none) (.node (none) (.node (none) (.node (none) (.node (none) (.node (some (8, 9)) .leaf .leaf) .leaf) .leaf) .leaf) .leaf) .leaf) (.node (none) (.node (none) (.node (none) (.node (none) (.node (none) (.node (some (26, 27)) .leaf .leaf) .leaf) .leaf) .leaf) .leaf) .leaf))) (.node (none) (.node (none) (.node (none) (.node (none) (.node (none) (.node (none) (.node (none) (.node (some (4, 5)) .leaf .leaf) .leaf) .leaf) .leaf) .leaf) .leaf) (.node (none) (.node (none) (.node (none) (.node (none) (.node (none) (.node (some (22, 23)) .leaf .leaf) .leaf) .leaf) .leaf) .leaf) .leaf)) (.node (none) (.node (none) (.node (none) (.node (none) (.node (none) (.node (none) (.node (some (14, 15)) .leaf .leaf) .leaf) .leaf) .leaf) .leaf) .leaf) .leaf))))), 5, [20480, 20496, 20488, 20504, 20484, 20500, 20492, 20508, 20482, 20498, 20490, 20506, 20486, 20502, 20494, 20510, 20481,
 20497, 20489, 20505, 20485, 20501, 20493, 20509, 20483, 20499, 20491, 20507, 20487, 20503, 20495, 20511]⟩

/-- `static const auto default_lit_len_tree = make_huffman_tree(make_default_huffman_table(), 9);`
(see `fixed_lit_tree_spec`). -/
def fixedLitTree : Except Derr HuffTree := .ok fixedLitTreeData

/-- `static const auto default_dist_tree = make_huffman_tree(make_default_huffman_len_table(), 5);`
(see `fixed_dist_tree_spec`). -/
def fixedDistTree : Except Derr HuffTree := .ok fixedDistTreeData

/-- The block loop of `deflate`.  `BTYPE = 3` hits
`assert(type != block_type::reserved)` before the dispatch; `BTYPE = 0`
hits the `assert(false)` in the (otherwise empty) uncompressed branch; a
`false` return from `deflate_inner` or
`read_dynamic_huffman_code_lengths` reaches `invalid()`
(`Derr.invalidStream`). -/
def deflateLoop : Nat → OutputBuffer → BitStream →
    Except Derr (OutputBuffer × BitStream)
  | 0, _, _ => .error .fuelOut
  | fuel + 1, out, bs => do
    let (bfinal, bs) ← bs.get_bit
    let (btype, bs) ← bs.get_bits 2
    if btype = 3 then .error .assertFail
    else do
      let (out, bs) ←
        (if btype = 0 then .error .assertFail
        else if btype = 2 then do
          let (r, bs) ← readDynamic (fuel + 1) bs
          match r with
          | none => .error .invalidStream
          | some (cl2, hlit) => do
            let litTree ← make_huffman_tree (make_huffman_table (cl2.take hlit)) 9
            let distTree ← make_huffman_tree (make_huffman_table (cl2.drop hlit)) 6
            let (done, out, bs) ← deflateInner litTree distTree (fuel + 1) out bs
            if done then pure (out, bs) else .error .invalidStream
        else do
          let litTree ← fixedLitTree
          let distTree ← fixedDistTree
          let (done, out, bs) ← deflateInner litTree distTree (fuel + 1) out bs
          if done then pure (out, bs) else .error .invalidStream
        : Except Derr (OutputBuffer × BitStream))
      if bfinal ≠ 0 then .ok (out, bs) else deflateLoop fuel out bs

/-- `deflate(bit_stream&)`.  Fuel: every iteration of every loop consumes
at least one bit, so `8 * length + 32` steps always suffice. -/
def deflate (bs : BitStream) : Except Derr (List Nat × BitStream) :=
  (deflateLoop (8 * bs.data.length + 32) ⟨[], 0, 0⟩ bs).map
    fun (out, bs) => (out.steal_buffer, bs)

/-- Run the decoder on a byte list, as `deflate(bit_stream{data})`. -/
def deflateRun (data : List Nat) : Except Derr (List Nat) :=
  (deflate (BitStream.mk0 data)).map Prod.fst

/-! ## Specification-side constructions for the Huffman claims -/

/-- The wire bits of a Huffman code, most significant first:
`[testBit (len-1), …, testBit 0]`. -/
def codeBitsAux : Nat → Nat → List Bool
  | 0, _ => []
  | l + 1, v => v.testBit l :: codeBitsAux l v

/-- The wire bits of a `HuffCode`. -/
def codeBits (c : HuffCode) : List Bool := codeBitsAux c.len c.value

/-- Pack a bit list into bytes, LSB-first within each byte, padding the
final byte with zero bits — a byte stream "consisting solely of" those
bits. -/
def packBitsAux : Nat → List Bool → List Nat
  | 0, _ => []
  | _, [] => []
  | fuel + 1, b :: r =>
    lsbValue ((b :: r).take 8) :: packBitsAux fuel ((b :: r).drop 8)

def packBits (l : List Bool) : List Nat := packBitsAux l.length l

/-- `codePathB t idx len value sym` says that walking the `len`-bit code
`value` (MSB first) from interior node `idx` follows set interior edges
and ends on a leaf edge holding `sym`. -/
def codePathB (t : HuffTree) : Nat → Nat → Nat → Nat → Bool
  | _, 0, _, _ => false
  | idx, 1, value, sym =>
    decide (idx < t.numNodes) &&
    decide (t.branchVal idx (value.testBit 0) = sym) && decide (sym < maxSymbols)
  | idx, len + 2, value, sym =>
    decide (idx < t.numNodes) &&
    (let e := t.branchVal idx (value.testBit (len + 1))
     decide (maxSymbols ≤ e) && decide (e - maxSymbols < t.numNodes) &&
       codePathB t (e - maxSymbols) (len + 1) value sym)

/-- The ideal (non-wrapping) value of `next_code[k]`, used to analyse the
`uint16_t` computation `nextCode` under the Kraft inequality. -/
def nextCodeI (L : List Nat) : Nat → Nat
  | 0 => 0
  | k + 1 => (nextCodeI L k + blCount L k) * 2

-- DEFS-END-MARKER

/-! # Part II: theorems -/

/-! ## Bit-list lemmas -/

@[simp] theorem natBits_length (a b : Nat) : (natBits a b).length = a := by
  induction a generalizing b with
  | zero => rfl
  | succ n ih => simp [natBits, ih]

theorem if_testBit_zero (b : Nat) : (if b.testBit 0 then 1 else 0) = b % 2 := by
  rcases Nat.mod_two_eq_zero_or_one b with h | h <;> simp [Nat.testBit_zero, h]

theorem lsbValue_natBits (a b : Nat) : lsbValue (natBits a b) = b % 2 ^ a := by
  induction a generalizing b with
  | zero => simp [natBits, lsbValue, Nat.mod_one]
  | succ n ih =>
    have h2 : (2 : Nat) ∣ 2 ^ (n + 1) := ⟨2 ^ n, by rw [pow_succ]; ring⟩
    have hdiv : b / 2 % 2 ^ n = b % 2 ^ (n + 1) / 2 := by
      have hp : (2 : Nat) ^ (n + 1) = 2 * 2 ^ n := by ring
      rw [hp, Nat.mod_mul_right_div_self]
    calc lsbValue (natBits (n + 1) b)
        = b % 2 + 2 * (b / 2 % 2 ^ n) := by
          simp only [natBits, lsbValue, ih, if_testBit_zero]
      _ = b % 2 ^ (n + 1) % 2 + 2 * (b % 2 ^ (n + 1) / 2) := by
          rw [hdiv, Nat.mod_mod_of_dvd _ h2]
      _ = b % 2 ^ (n + 1) := Nat.mod_add_div _ 2

theorem natBits_lsbValue (l : List Bool) : natBits l.length (lsbValue l) = l := by
  induction l with
  | nil => rfl
  | cons b r ih =>
    have hval : lsbValue (b :: r) = (if b then 1 else 0) + 2 * lsbValue r := rfl
    have hmod : lsbValue (b :: r) % 2 = if b then 1 else 0 := by
      rw [hval]; rcases b with _ | _ <;> simp [Nat.add_mul_mod_self_left]
    have hdiv : lsbValue (b :: r) / 2 = lsbValue r := by
      rw [hval]; rcases b with _ | _ <;> simp [Nat.add_mul_div_left]
    show (lsbValue (b :: r)).testBit 0 :: natBits r.length (lsbValue (b :: r) / 2) = b :: r
    rw [hdiv, ih, Nat.testBit_zero, hmod]
    rcases b with _ | _ <;> simp

theorem natBits_take {n a : Nat} (h : n ≤ a) (b : Nat) :
    (natBits a b).take n = natBits n b := by
  induction n generalizing a b with
  | zero => simp [natBits]
  | succ m ih =>
    rcases a with _ | a'
    · omega
    · simp only [natBits, List.take_succ_cons]
      rw [ih (by omega)]

theorem natBits_drop {n a : Nat} (h : n ≤ a) (b : Nat) :
    (natBits a b).drop n = natBits (a - n) (b / 2 ^ n) := by
  induction n generalizing a b with
  | zero => simp
  | succ m ih =>
    rcases a with _ | a'
    · omega
    · simp only [natBits, List.drop_succ_cons]
      rw [ih (by omega)]
      congr 1
      · omega
      · rw [Nat.div_div_eq_div_mul, pow_succ]; ring_nf

/-- Splicing a byte on top of an accumulator holding `a` bits appends its
bits after the accumulator's. -/
theorem natBits_add_mul {a : Nat} (k : Nat) {bits : Nat} (d : Nat)
    (h : bits < 2 ^ a) :
    natBits (a + k) (bits + 2 ^ a * d) = natBits a bits ++ natBits k d := by
  induction a generalizing bits with
  | zero =>
    interval_cases bits
    simp [natBits]
  | succ n ih =>
    have hrw : bits + 2 ^ (n + 1) * d = bits + 2 * (2 ^ n * d) := by
      rw [pow_succ]; ring
    have hsucc : n + 1 + k = (n + k) + 1 := by omega
    rw [hrw, hsucc]
    show (bits + 2 * (2 ^ n * d)).testBit 0 ::
        natBits (n + k) ((bits + 2 * (2 ^ n * d)) / 2) =
      (bits.testBit 0 :: natBits n (bits / 2)) ++ natBits k d
    have hbit : (bits + 2 * (2 ^ n * d)).testBit 0 = bits.testBit 0 := by
      simp [Nat.testBit_zero, Nat.add_mul_mod_self_left]
    have hdiv : (bits + 2 * (2 ^ n * d)) / 2 = bits / 2 + 2 ^ n * d := by
      rw [Nat.add_mul_div_left _ _ (by omega : (0:Nat) < 2)]
    have hlt : bits / 2 < 2 ^ n := by
      rw [Nat.div_lt_iff_lt_mul (by omega : (0:Nat) < 2), ← pow_succ]
      exact h
    rw [hbit, hdiv, ih hlt]
    rfl

theorem bytesBits_cons (b : Nat) (l : List Nat) :
    bytesBits (b :: l) = natBits 8 b ++ bytesBits l := rfl

@[simp] theorem bytesBits_nil : bytesBits [] = [] := rfl

theorem lsbValue_lt (l : List Bool) : lsbValue l < 2 ^ l.length := by
  induction l with
  | nil => simp [lsbValue]
  | cons b r ih =>
    simp only [lsbValue, List.length_cons, pow_succ]
    rcases b with _ | _ <;> simp <;> omega


/-! ## Bit-stream lemmas -/

namespace BitStream

theorem inv_mk0 {data : List Nat} (h : ∀ b ∈ data, b < 256) : (mk0 data).Inv :=
  ⟨by simp [mk0], by simp [mk0], by simp [mk0], h⟩

@[simp] theorem remBits_length (bs : BitStream) :
    bs.remBits.length = bs.avail + 8 * (bs.data.length - bs.pos) := by
  have : ∀ l : List Nat, (bytesBits l).length = 8 * l.length := by
    intro l
    induction l with
    | nil => simp
    | cons b r ih => simp [bytesBits_cons, ih]; ring
  simp [remBits, this, List.length_drop]


/-- Correctness of the `ensure_bits` refill loop: it succeeds whenever the
requested number of bits is still present in the stream, it does not change
the remaining bit sequence, and it makes `numBits` bits available. -/
theorem ensureLoop_spec (data : List Nat) (fuel : Nat)
    (pos bits avail numBits : Nat)
    (hbits : bits < 2 ^ avail) (hpos : pos ≤ data.length)
    (havail : avail ≤ 23) (hn : numBits ≤ 16)
    (hbytes : ∀ b ∈ data, b < 256)
    (henough : numBits ≤ avail + 8 * (data.length - pos))
    (hfuel : numBits ≤ avail + 8 * fuel) :
    ∃ pos' bits' avail',
      ensureLoop data fuel pos bits avail numBits = .ok (pos', bits', avail') ∧
      bits' < 2 ^ avail' ∧ avail' ≤ 23 ∧ pos' ≤ data.length ∧
      numBits ≤ avail' ∧
      natBits avail' bits' ++ bytesBits (data.drop pos') =
        natBits avail bits ++ bytesBits (data.drop pos) := by
  induction fuel generalizing pos bits avail with
  | zero =>
    have hge : ¬ avail < numBits := by omega
    exact ⟨pos, bits, avail, by rw [ensureLoop, if_neg hge], hbits, havail,
      hpos, by omega, rfl⟩
  | succ fuel ih =>
    by_cases hlt : avail < numBits
    · have hposlt : pos < data.length := by omega
      have hbyte : data.getD pos 0 < 256 := by
        apply hbytes
        rw [List.getD_eq_getElem data 0 hposlt]
        exact List.getElem_mem _
      have hor : bits ||| (data.getD pos 0 <<< avail) =
          bits + 2 ^ avail * data.getD pos 0 := by
        rw [Nat.shiftLeft_eq, Nat.mul_comm (data.getD pos 0), Nat.or_comm,
          ← Nat.mul_add_lt_is_or hbits]
        ring
      have hbits' : bits + 2 ^ avail * data.getD pos 0 < 2 ^ (avail + 8) := by
        have : 2 ^ (avail + 8) = 2 ^ avail * 256 := by rw [pow_add]; norm_num
        rw [this]
        calc bits + 2 ^ avail * data.getD pos 0
            < 2 ^ avail + 2 ^ avail * 255 := by
              have := Nat.mul_le_mul_left (2 ^ avail)
                (by omega : data.getD pos 0 ≤ 255)
              omega
          _ ≤ 2 ^ avail * 256 := by ring_nf; omega
      have hdrop : data.drop pos = data.getD pos 0 :: data.drop (pos + 1) := by
        rw [List.getD_eq_getElem data 0 hposlt]
        exact List.drop_eq_getElem_cons hposlt
      obtain ⟨pos', bits', avail', heq, h1, h2, h3, h4, h5⟩ :=
        ih (pos + 1) (bits + 2 ^ avail * data.getD pos 0) (avail + 8) hbits'
          (by omega) (by omega) (by omega) (by omega)
      refine ⟨pos', bits', avail', ?_, h1, h2, h3, h4, ?_⟩
      · rw [ensureLoop, if_pos hlt, if_pos hposlt, hor]
        exact heq
      · rw [h5, natBits_add_mul 8 _ hbits, hdrop, bytesBits_cons]
        simp [List.append_assoc]
    · exact ⟨pos, bits, avail, by rw [ensureLoop, if_neg hlt], hbits, havail,
        hpos, by omega, rfl⟩

theorem ensure_bits_spec {bs : BitStream} {numBits : Nat}
    (hinv : bs.Inv) (h0 : 0 < numBits) (h16 : numBits ≤ 16)
    (henough : numBits ≤ bs.remBits.length) :
    ∃ bs', bs.ensure_bits numBits = .ok bs' ∧ bs'.Inv ∧
      bs'.remBits = bs.remBits ∧ numBits ≤ bs'.avail ∧
      bs'.data = bs.data := by
  obtain ⟨hbits, havail, hpos, hbytes⟩ := hinv
  rw [remBits_length] at henough
  obtain ⟨pos', bits', avail', heq, h1, h2, h3, h4, h5⟩ :=
    ensureLoop_spec bs.data numBits bs.pos bs.bits bs.avail numBits hbits hpos
      havail h16 hbytes henough (by omega)
  refine ⟨{ bs with pos := pos', bits := bits', avail := avail' }, ?_,
    ⟨h1, h2, h3, hbytes⟩, h5, h4, rfl⟩
  rw [ensure_bits, if_pos ⟨h0, h16⟩, heq]
  rfl

theorem peek_bits_spec {bs : BitStream} {numBits : Nat}
    (hinv : bs.Inv) (h0 : 0 < numBits) (hle : numBits ≤ bs.avail) :
    bs.peek_bits numBits = .ok (lsbValue (bs.remBits.take numBits)) := by
  obtain ⟨hbits, _, _, _⟩ := hinv
  rw [peek_bits, if_pos ⟨h0, hle⟩]
  congr 1
  have h1 : (1 <<< numBits) - 1 = 2 ^ numBits - 1 := by
    rw [Nat.shiftLeft_eq, one_mul]
  rw [h1, Nat.and_pow_two_sub_one_eq_mod]
  rw [remBits, List.take_append_of_le_length (by simp [hle]),
    natBits_take hle, lsbValue_natBits]

theorem consume_bits_spec {bs : BitStream} {numBits : Nat}
    (hinv : bs.Inv) (h0 : 0 < numBits) (hle : numBits ≤ bs.avail) :
    ∃ bs', bs.consume_bits numBits = .ok bs' ∧ bs'.Inv ∧
      bs'.remBits = bs.remBits.drop numBits ∧
      bs'.data = bs.data ∧ bs'.pos = bs.pos ∧
      bs'.avail = bs.avail - numBits := by
  obtain ⟨hbits, havail, hpos, hbytes⟩ := hinv
  have hlt' : bs.bits >>> numBits < 2 ^ (bs.avail - numBits) := by
    rw [Nat.shiftRight_eq_div_pow]
    apply Nat.div_lt_of_lt_mul
    rw [← pow_add]
    have h : numBits + (bs.avail - numBits) = bs.avail := by omega
    rw [h]; exact hbits
  refine ⟨⟨bs.data, bs.pos, bs.bits >>> numBits, bs.avail - numBits⟩, ?_,
    ⟨hlt', by show bs.avail - numBits ≤ 23; omega, hpos, hbytes⟩,
    ?_, rfl, rfl, rfl⟩
  · rw [consume_bits, if_pos ⟨h0, hle⟩]
  · show natBits (bs.avail - numBits) (bs.bits >>> numBits) ++
        bytesBits (bs.data.drop bs.pos) = bs.remBits.drop numBits
    rw [remBits, Nat.shiftRight_eq_div_pow,
      List.drop_append_of_le_length (by simp [hle]), natBits_drop hle]

theorem get_bits_spec {bs : BitStream} {numBits : Nat}
    (hinv : bs.Inv) (h0 : 0 < numBits) (h16 : numBits ≤ 16)
    (henough : numBits ≤ bs.remBits.length) :
    ∃ bs', bs.get_bits numBits =
        .ok (lsbValue (bs.remBits.take numBits), bs') ∧ bs'.Inv ∧
      bs'.remBits = bs.remBits.drop numBits ∧ bs'.data = bs.data := by
  obtain ⟨bs1, he, hinv1, hrem1, hav1, hdata1⟩ :=
    ensure_bits_spec hinv h0 h16 henough
  have hpeek := peek_bits_spec hinv1 h0 hav1
  obtain ⟨bs2, hc, hinv2, hrem2, hdata2, _, _⟩ :=
    consume_bits_spec hinv1 h0 hav1
  refine ⟨bs2, ?_, hinv2, by rw [hrem2, hrem1], by rw [hdata2, hdata1]⟩
  rw [get_bits, he]
  show (do
    let res ← bs1.peek_bits numBits
    let bs ← bs1.consume_bits numBits
    return (res, bs)) = _
  rw [hpeek, hrem1, hc]
  rfl

theorem get_bit_spec {bs : BitStream} {b : Bool} {rest : List Bool}
    (hinv : bs.Inv) (hrem : bs.remBits = b :: rest) :
    ∃ bs', bs.get_bit = .ok ((if b then 1 else 0), bs') ∧ bs'.Inv ∧
      bs'.remBits = rest ∧ bs'.data = bs.data := by
  obtain ⟨bs', heq, hinv', hrem', hdata'⟩ :=
    @get_bits_spec bs 1 hinv (by omega) (by omega)
      (by rw [hrem]; simp)
  refine ⟨bs', ?_, hinv', by rw [hrem', hrem]; rfl, hdata'⟩
  rw [get_bit, heq, hrem]
  simp [lsbValue]

/-- `potentially_available_bits` never overstates the stream content. -/
theorem potentially_available_le (bs : BitStream) :
    bs.potentially_available_bits ≤ bs.remBits.length := by
  rw [remBits_length, potentially_available_bits]
  split <;> omega

end BitStream

/-! ## The fixed-Huffman decoders are the materialized values -/

/-- The fixed literal/length decoder value equals its defining
computation in the source. -/
theorem fixed_lit_tree_spec :
    make_huffman_tree make_default_huffman_table 9 = fixedLitTree := by
  decide!

/-- The fixed distance decoder value equals its defining computation in
the source. -/
theorem fixed_dist_tree_spec :
    make_huffman_tree make_default_huffman_len_table 5 = fixedDistTree := by
  decide!

/-! # Claim theorems (concrete claims) -/

/-- C1: `deflate` on the two documented test streams (one block each,
`BFINAL = 1`) returns exactly the 14 bytes of `"Line 1\nLine 2\n"`. -/
theorem C1_deflate_known_streams :
    deflateRun [0xf3, 0xc9, 0xcc, 0x4b, 0x55, 0x30, 0xe4, 0xf2, 0x01, 0x51,
      0x46, 0x5c, 0x00] =
      .ok [76, 105, 110, 101, 32, 49, 10, 76, 105, 110, 101, 32, 50, 10] ∧
    deflateRun [0xf3, 0xc9, 0xcc, 0x4b, 0x55, 0x30, 0xe4, 0x02, 0x53, 0x46,
      0x5c, 0x00] =
      .ok [76, 105, 110, 101, 32, 49, 10, 76, 105, 110, 101, 32, 50, 10] := by
  constructor
  · decide!
  · decide!

/-- C2: on a well-formed stored (`BTYPE = 0`) block carrying one raw byte
`0xAB`, `deflate` does not read `LEN`/`NLEN` nor copy the byte: the
uncompressed branch is `assert(false)` with an empty body, so the decoder
fails (debug builds abort; release builds silently skip the block data). -/
theorem C2_uncompressed_block_asserts :
    deflateRun [0x01, 0x01, 0x00, 0xFE, 0xFF, 0xAB] = .error .assertFail := by
  decide!

/-- C3 counterexample: `get_bits(17)` on a buffer holding 24 unread bits
fails the `assert(num_bits > 0 && num_bits <= 16)` in `ensure_bits`, so the
claimed range `1 ≤ n < 24` is wrong for every `n ∈ [17, 23]`. -/
theorem C3_get_bits_17_asserts :
    (BitStream.mk0 [0, 0, 0]).get_bits 17 = .error .assertFail := by decide

/-- C4: `copy_match(32768, 3)` on a buffer with `used = 32768` fails the
`assert(distance < 32768)` although 32768 is a format-legal distance
(base 24577 + 13 all-ones extra bits); `copy_match(32767, 3)` on the same
buffer succeeds. -/
theorem C4_copy_match_32768_asserts :
    (OutputBuffer.copy_match ⟨List.replicate 33000 0, 33000, 32768⟩ 32768 3
      = .error .assertFail) ∧
    ((OutputBuffer.copy_match ⟨List.replicate 33000 0, 33000, 32768⟩ 32767 3).isOk
      = true) := by
  constructor
  · decide
  · decide

/-- C5 counterexample: the over-subscribed length vector `[1, 1, 1]`
(Kraft sum `3·2^14 > 2^15`) makes `make_huffman_table` assign symbol 2 the
pair `(len 1, value 2)` with `2 ≥ 2^1`, refuting the universal claim. -/
theorem C5_oversubscribed_value_overflow :
    (make_huffman_table [1, 1, 1]).getD 2 ⟨0, 0⟩ = ⟨1, 2⟩ ∧
    ¬((make_huffman_table [1, 1, 1]).getD 2 ⟨0, 0⟩).value <
      2 ^ ((make_huffman_table [1, 1, 1]).getD 2 ⟨0, 0⟩).len := by decide

/-- C7 counterexample: a stream that ends inside a block (here: inside a
block, after the 3 header bits and 5 more bits) fails the
`assert(pos_ < len_)` in `bit_stream::ensure_bits` — not the typed
`invalid stream` error. -/
theorem C7_eof_not_invalid_stream :
    deflateRun [0x04] = .error .assertFail ∧
    deflateRun [0x04] ≠ .error .invalidStream := by
  constructor
  · decide!
  · decide!

/-- C7 amended: end-of-input inside a block surfaces as the bit reader's
assertion failure (undefined behaviour in release builds), both inside a
fixed-Huffman block (`[0x02]`: `BFINAL=0`, the stream ends while decoding
the first symbol) and inside a dynamic block header (`[0x04]`); the
`Except` result carries no partial output. -/
theorem C7_eof_asserts :
    deflateRun [0x02] = .error .assertFail ∧
    deflateRun [0x04] = .error .assertFail := by
  constructor
  · decide!
  · decide!

/-- C8 counterexample: a fixed-Huffman stream encoding literal `'A'`,
length symbol 257 (length 3) and distance symbol 30 decodes without any
error: entries 30/31 of the distance tables are the zero-initialized tail
of the 32-entry arrays, so the match uses distance 0 and appends three
bytes (the zero-initialized buffer content), yielding `[65, 0, 0, 0]`. -/
theorem C8_distance_symbol_30_accepted :
    deflateRun [0x73, 0x04, 0x3E, 0x00] = .ok [65, 0, 0, 0] ∧
    ∀ e : Derr, deflateRun [0x73, 0x04, 0x3E, 0x00] ≠ .error e := by
  refine ⟨by decide!, ?_⟩
  intro e
  have h : deflateRun [0x73, 0x04, 0x3E, 0x00] = .ok [65, 0, 0, 0] := by decide!
  rw [h]
  intro hc
  cases hc

/-- C8 amended: in the symbol loop, a decoded literal/length symbol above
285 (here 286, fixed code `11000110`) makes the decoder index past the end
of the 29-entry `extra_bits`/`lengths` arrays (undefined behaviour), not
raise the invalid-stream error; decoded distance symbols 30/31 read base
distance 0 with 0 extra bits from the zero-initialized array tails; while
a back-reference whose distance exceeds the bytes produced so far does
raise the typed invalid-stream error. -/
theorem C8_symbol_range_behaviour :
    deflateRun [0x1B, 0x03] = .error .oobAccess ∧
    deflateRun [0x73, 0x04, 0x42] = .error .invalidStream ∧
    distExtraBits.getD 30 0 = 0 ∧ distBase.getD 30 0 = 0 ∧
    distExtraBits.getD 31 0 = 0 ∧ distBase.getD 31 0 = 0 := by
  refine ⟨by decide!, by decide!, by decide, by decide, by decide, by decide⟩

/-- C9 counterexample: the incomplete code-length vector `[2]` (a single
2-bit code, Kraft sum `2^13 < 2^15`) makes `make_tables` walk an unset
edge within the table depth: `branch(invalid_edge_value - max_symbols, …)`
fails its `assert(index < num_nodes)`, so building the decode structure
does not succeed. -/
theorem C9_incomplete_build_asserts :
    make_huffman_tree (make_huffman_table [2]) 7 = .error .assertFail := by
  decide

/-- C9 amended: an incomplete code builds successfully only when every
unset edge lies deeper than the table depth (here `[1, 2]` at depth 1),
and a decode that walks into the unset edge then fails the
`assert(index < num_nodes)` in `branch` — there is no reported
corrupt-stream error at use time. -/
theorem C9_incomplete_deep_edge :
    (make_huffman_tree (make_huffman_table [1, 2]) 1).isOk = true ∧
    (make_huffman_tree (make_huffman_table [1, 2]) 1).bind
      (fun t => decode t (BitStream.mk0 [0x03])) = .error .assertFail := by
  constructor
  · decide
  · decide

/-! ## Array axioms for `NatMap` -/

namespace NatMap

theorem getB_setB_self {α : Type} (m : NatMap α) (bits : List Bool) (v : α) :
    (m.setB bits v).getB bits = some v := by
  induction bits generalizing m with
  | nil => cases m <;> rfl
  | cons b bs ih =>
    cases m with
    | leaf =>
      rcases b with _ | _ <;> simp [setB, getB, ih]
    | node h l r =>
      rcases b with _ | _ <;> simp [setB, getB, ih]

theorem getB_setB_ne {α : Type} (m : NatMap α) {bits bits' : List Bool}
    (v : α) (hne : bits ≠ bits') (hlen : bits.length = bits'.length) :
    (m.setB bits v).getB bits' = m.getB bits' := by
  induction bits generalizing m bits' with
  | nil => cases bits' <;> simp_all
  | cons b bs ih =>
    cases bits' with
    | nil => simp at hlen
    | cons b' bs' =>
      have hcases : b ≠ b' ∨ (b = b' ∧ bs ≠ bs') := by
        by_cases hb : b = b'
        · subst hb
          refine .inr ⟨rfl, ?_⟩
          intro hc; exact hne (by rw [hc])
        · exact .inl hb
      cases m with
      | leaf =>
        rcases hcases with hb | ⟨hb, hbs⟩
        · rcases b with _ | _ <;> rcases b' with _ | _ <;> simp_all [setB, getB]
        · subst hb
          rcases b with _ | _ <;>
            simp_all [setB, getB, List.length_cons, Nat.succ_inj]
      | node h l r =>
        rcases hcases with hb | ⟨hb, hbs⟩
        · rcases b with _ | _ <;> rcases b' with _ | _ <;> simp_all [setB, getB]
        · subst hb
          rcases b with _ | _ <;> simp_all [setB, getB, List.length_cons]

theorem getB_leaf {α : Type} (bits : List Bool) :
    (NatMap.leaf : NatMap α).getB bits = none := by cases bits <;> rfl

theorem keyBits_inj {j k : Nat} (hj : j < 1024) (hk : k < 1024)
    (h : keyBits j = keyBits k) : j = k := by
  have hv : lsbValue (natBits 10 j) = lsbValue (natBits 10 k) := by
    rw [show natBits 10 j = keyBits j from rfl, h]; rfl
  rw [lsbValue_natBits, lsbValue_natBits] at hv
  have hj' : j % 2 ^ 10 = j := Nat.mod_eq_of_lt (by norm_num at hj ⊢; omega)
  have hk' : k % 2 ^ 10 = k := Nat.mod_eq_of_lt (by norm_num at hk ⊢; omega)
  rw [hj', hk'] at hv
  exact hv

theorem get_set_self {α : Type} (m : NatMap α) (k : Nat) (v : α) :
    (m.set k v).get k = some v := getB_setB_self m _ v

theorem get_set_ne {α : Type} (m : NatMap α) {j k : Nat} (v : α)
    (hj : j < 1024) (hk : k < 1024) (hne : k ≠ j) :
    (m.set k v).get j = m.get j := by
  refine getB_setB_ne m v ?_ (by simp [keyBits])
  intro hc
  exact hne (keyBits_inj hk hj hc)

theorem get_leaf {α : Type} (k : Nat) :
    (NatMap.leaf : NatMap α).get k = none := getB_leaf _

end NatMap

/-- C3 amended: for `1 ≤ n ≤ 16` (the range `ensure_bits` accepts) and any
well-formed stream state holding at least `n` unread bits, `get_bits(n)`
succeeds and returns the integer formed LSB-first from the next `n` stream
bits — across byte boundaries — consuming exactly those bits. -/
theorem C3_get_bits_correct (bs : BitStream) (n : Nat) (hinv : bs.Inv)
    (h1 : 1 ≤ n) (h16 : n ≤ 16) (hlen : n ≤ bs.remBits.length) :
    ∃ bs', bs.get_bits n = .ok (lsbValue (bs.remBits.take n), bs') ∧
      bs'.Inv ∧ bs'.remBits = bs.remBits.drop n := by
  obtain ⟨bs', heq, hinv', hrem', _⟩ := BitStream.get_bits_spec hinv h1 h16 hlen
  exact ⟨bs', heq, hinv', hrem'⟩

/-- C3 witness: reading 16 bits of `[0x5A, 0xA5]` yields `0xA55A`
(scenario 2 of the specification). -/
theorem C3_get_bits_correct_witness :
    (BitStream.mk0 [0x5A, 0xA5]).Inv ∧
    ∃ bs', (BitStream.mk0 [0x5A, 0xA5]).get_bits 16 = .ok (0xA55A, bs') := by
  have hinv : (BitStream.mk0 [0x5A, 0xA5]).Inv := BitStream.inv_mk0 (by decide)
  refine ⟨hinv, ?_⟩
  obtain ⟨bs', h1, _, _⟩ :=
    C3_get_bits_correct (BitStream.mk0 [0x5A, 0xA5]) 16 hinv (by decide)
      (by decide) (by decide)
  have hv : lsbValue ((BitStream.mk0 [0x5A, 0xA5]).remBits.take 16) = 0xA55A := by
    decide
  rw [hv] at h1
  exact ⟨bs', h1⟩

/-! ## The canonical construction under the Kraft inequality (C5) -/

theorem blCount_cons_ge_one {j : Nat} (x : Nat) (r : List Nat) (hj : 1 ≤ j) :
    blCount (x :: r) j = blCount r j + if j = x then 1 else 0 := by
  simp only [blCount, if_neg (by omega : ¬ j = 0), List.count_cons]
  congr 1
  by_cases h : j = x
  · simp [h]
  · have h' : ¬ x = j := fun hc => h hc.symm
    simp [h, h']

/-- The scaled partial-sum identity for the ideal `next_code`. -/
theorem nextCodeI_scaled (L : List Nat) :
    ∀ k, k ≤ 15 →
      (nextCodeI L k + blCount L k) * 2 ^ (15 - k) =
        ∑ j ∈ Finset.Icc 1 k, blCount L j * 2 ^ (15 - j) := by
  intro k
  induction k with
  | zero =>
    intro _
    simp [nextCodeI, blCount, Finset.Icc_eq_empty (by omega : ¬ (1:ℕ) ≤ 0)]
  | succ k ih =>
    intro hk
    have hk' : k ≤ 15 := by omega
    have hpow : 2 * 2 ^ (15 - (k + 1)) = 2 ^ (15 - k) := by
      rw [← pow_succ']
      congr 1
      omega
    calc (nextCodeI L (k + 1) + blCount L (k + 1)) * 2 ^ (15 - (k + 1))
        = (nextCodeI L k + blCount L k) * (2 * 2 ^ (15 - (k + 1))) +
            blCount L (k + 1) * 2 ^ (15 - (k + 1)) := by
          simp only [nextCodeI]; ring
      _ = (∑ j ∈ Finset.Icc 1 k, blCount L j * 2 ^ (15 - j)) +
            blCount L (k + 1) * 2 ^ (15 - (k + 1)) := by
          rw [hpow, ih hk']
      _ = ∑ j ∈ Finset.Icc 1 (k + 1), blCount L j * 2 ^ (15 - j) := by
          rw [Finset.sum_Icc_succ_top (by omega : 1 ≤ k + 1)]

/-- Grouping the per-symbol Kraft sum by code length. -/
theorem kraftSum_group (L : List Nat) (hL : ∀ l ∈ L, l ≤ 15) :
    kraftSum L = ∑ j ∈ Finset.Icc 1 15, blCount L j * 2 ^ (15 - j) := by
  induction L with
  | nil => simp [kraftSum, blCount]
  | cons x r ih =>
    have hx : x ≤ 15 := hL x (by simp)
    have hr : ∀ l ∈ r, l ≤ 15 := fun l hl => hL l (by simp [hl])
    have hsum : ∑ j ∈ Finset.Icc 1 15, blCount (x :: r) j * 2 ^ (15 - j) =
        (∑ j ∈ Finset.Icc 1 15, blCount r j * 2 ^ (15 - j)) +
          ∑ j ∈ Finset.Icc 1 15, (if j = x then 1 else 0) * 2 ^ (15 - j) := by
      rw [← Finset.sum_add_distrib]
      refine Finset.sum_congr rfl fun j hj => ?_
      rw [blCount_cons_ge_one x r (Finset.mem_Icc.mp hj).1]
      ring
    have hite : ∑ j ∈ Finset.Icc 1 15, (if j = x then 1 else 0) * 2 ^ (15 - j) =
        if x ∈ Finset.Icc 1 15 then 2 ^ (15 - x) else 0 := by
      rw [← Finset.sum_ite_eq' (Finset.Icc 1 15) x (fun j => 2 ^ (15 - j))]
      refine Finset.sum_congr rfl fun j _ => ?_
      by_cases h : j = x <;> simp [h]
    rw [hsum, hite, ← ih hr]
    by_cases hx0 : x = 0
    · subst hx0
      simp [kraftSum]
    · have hmem : x ∈ Finset.Icc 1 15 := Finset.mem_Icc.mpr ⟨by omega, hx⟩
      simp only [kraftSum, List.map_cons, List.sum_cons, if_neg hx0, if_pos hmem]
      ring

/-- Under the Kraft inequality, the ideal next-code values stay below
`2^k` even after the codes of length `k` are exhausted. -/
theorem nextCodeI_bound (L : List Nat) (hL : ∀ l ∈ L, l ≤ 15)
    (hK : kraftSum L ≤ 2 ^ 15) :
    ∀ k, k ≤ 15 → nextCodeI L k + blCount L k ≤ 2 ^ k := by
  intro k hk
  have hpart : (nextCodeI L k + blCount L k) * 2 ^ (15 - k) ≤ 2 ^ 15 := by
    rw [nextCodeI_scaled L k hk]
    calc ∑ j ∈ Finset.Icc 1 k, blCount L j * 2 ^ (15 - j)
        ≤ ∑ j ∈ Finset.Icc 1 15, blCount L j * 2 ^ (15 - j) := by
          refine Finset.sum_le_sum_of_subset ?_
          intro j hj
          rw [Finset.mem_Icc] at hj ⊢
          omega
      _ = kraftSum L := (kraftSum_group L hL).symm
      _ ≤ 2 ^ 15 := hK
  have hsplit : (2 : Nat) ^ 15 = 2 ^ k * 2 ^ (15 - k) := by
    rw [← pow_add]
    congr 1
    omega
  rw [hsplit] at hpart
  exact Nat.le_of_mul_le_mul_right hpart (Nat.pos_pow_of_pos _ (by omega))

/-- Under the Kraft inequality the `uint16_t` arithmetic never wraps. -/
theorem nextCode_eq_ideal (L : List Nat) (hL : ∀ l ∈ L, l ≤ 15)
    (hK : kraftSum L ≤ 2 ^ 15) :
    ∀ k, k ≤ 15 → nextCode L k = nextCodeI L k := by
  intro k
  induction k with
  | zero => intro _; rfl
  | succ k ih =>
    intro hk
    have hb := nextCodeI_bound L hL hK (k + 1) hk
    have hlt : (nextCodeI L k + blCount L k) * 2 < 65536 := by
      have : nextCodeI L (k + 1) ≤ 2 ^ (k + 1) := by
        have := nextCodeI_bound L hL hK (k + 1) hk
        omega
      have hpow : (2 : Nat) ^ (k + 1) ≤ 2 ^ 15 := Nat.pow_le_pow_right (by omega) (by omega)
      simp only [nextCodeI] at this
      omega
    show ((nextCode L k + blCount L k) * 2) % 65536 = (nextCodeI L k + blCount L k) * 2
    rw [ih (by omega), Nat.mod_eq_of_lt hlt]

/-- The assignment loop keeps every emitted value below `2^len`, given
that each pending length still has room below `2^k`. -/
theorem assignLoop_value_bound (rest : List Nat) :
    ∀ nc : Nat → Nat,
      (∀ k, 1 ≤ k → k ≤ 15 → nc k + rest.count k ≤ 2 ^ k) →
      (∀ l ∈ rest, l ≤ 15) →
      ∀ c ∈ assignLoop nc rest, c.len ≠ 0 → c.value < 2 ^ c.len := by
  induction rest with
  | nil => intro nc _ _ c hc; simp [assignLoop] at hc
  | cons l r ih =>
    intro nc hb hr c hc hlen
    have hl15 : l ≤ 15 := hr l (by simp)
    by_cases hl : l = 0
    · subst hl
      have heq : assignLoop nc (0 :: r) = ⟨0, 0⟩ :: assignLoop nc r := rfl
      rw [heq] at hc
      rcases List.mem_cons.mp hc with h | h
      · subst h; simp at hlen
      · refine ih nc ?_ (fun x hx => hr x (by simp [hx])) c h hlen
        intro k h1 h15
        have := hb k h1 h15
        have hcount : r.count k ≤ (0 :: r).count k := by
          simp [List.count_cons]
        omega
    · have hl1 : 1 ≤ l := by omega
      have hself := hb l hl1 hl15
      have hcnt : ((l :: r).count l) = r.count l + 1 := by
        simp [List.count_cons]
      have heq : assignLoop nc (l :: r) = ⟨l, nc l⟩ ::
          assignLoop (fun k => if k = l then (nc l + 1) % 65536 else nc k) r := by
        simp only [assignLoop]
        rw [if_pos hl]
      rw [heq] at hc
      rcases List.mem_cons.mp hc with h | h
      · subst h
        show nc l < 2 ^ l
        omega
      · have hlim : nc l + 1 < 65536 := by
          have hpow : (2 : Nat) ^ l ≤ 2 ^ 15 :=
            Nat.pow_le_pow_right (by omega) hl15
          omega
        refine ih _ ?_ (fun x hx => hr x (by simp [hx])) c h hlen
        intro k h1 h15
        show (if k = l then (nc l + 1) % 65536 else nc k) + r.count k ≤ 2 ^ k
        by_cases hk : k = l
        · rw [if_pos hk, Nat.mod_eq_of_lt hlim]
          subst hk
          have := hb k h1 h15
          have : (k :: r).count k = r.count k + 1 := by simp [List.count_cons]
          omega
        · rw [if_neg hk]
          have := hb k h1 h15
          have hc1 : (k == l) = false := beq_eq_false_iff_ne.mpr hk
          have hc2 : (l == k) = false :=
            beq_eq_false_iff_ne.mpr (fun hc => hk hc.symm)
          have : (l :: r).count k = r.count k := by
            simp [List.count_cons, hc1, hc2]
          omega

/-- C5 amended: for every code-length vector with entries at most 15 that
satisfies the Kraft inequality `Σ 2^(15−len_i) ≤ 2^15` (over non-zero
lengths), every pair assigned by `make_huffman_table` satisfies
`value < 2^len`. -/
theorem C5_canonical_value_bound (L : List Nat) (hL : ∀ l ∈ L, l ≤ 15)
    (hK : kraftSum L ≤ 2 ^ 15) :
    ∀ c ∈ make_huffman_table L, c.len ≠ 0 → c.value < 2 ^ c.len := by
  refine assignLoop_value_bound L (nextCode L) ?_ hL
  intro k h1 h15
  rw [nextCode_eq_ideal L hL hK k h15]
  have := nextCodeI_bound L hL hK k h15
  have hbl : blCount L k = L.count k := by
    unfold blCount
    rw [if_neg (by omega : ¬ k = 0)]
  omega

/-- C5 witness: the RFC 1951 §3.2.2 example lengths `[3,3,3,3,3,2,4,4]`
(Kraft equality) get in-range values; symbol 6 receives `(4, 14)` with
`14 < 2^4`. -/
theorem C5_canonical_value_bound_witness :
    kraftSum [3, 3, 3, 3, 3, 2, 4, 4] ≤ 2 ^ 15 ∧
    ((make_huffman_table [3, 3, 3, 3, 3, 2, 4, 4]).getD 6 ⟨0, 0⟩).value <
      2 ^ ((make_huffman_table [3, 3, 3, 3, 3, 2, 4, 4]).getD 6 ⟨0, 0⟩).len := by
  refine ⟨by decide, ?_⟩
  refine C5_canonical_value_bound [3, 3, 3, 3, 3, 2, 4, 4] (by decide)
    (by decide) _ ?_ (by decide)
  decide

/-! ## Tree walks: `add` builds exactly the paths of its codes (C6/C10) -/

theorem clearTop_testBit {l v i : Nat} (hi : i < l) :
    (clearTop (l + 1) v).testBit i = v.testBit i := by
  unfold clearTop
  simp only [Nat.add_sub_cancel, Nat.shiftLeft_eq, one_mul, Nat.and_two_pow]
  cases hb : v.testBit l with
  | false => simp
  | true =>
    simp only [Bool.toNat_true, one_mul]
    have hge : 2 ^ l ≤ v := Nat.testBit_implies_ge hb
    have hmod : (v - 2 ^ l) % 2 ^ l = v % 2 ^ l := by
      conv_rhs => rw [← Nat.sub_add_cancel hge]
      rw [Nat.add_mod_right]
    have h1 : (v - 2 ^ l).testBit i = ((v - 2 ^ l) % 2 ^ l).testBit i := by
      rw [Nat.testBit_mod_two_pow]
      simp [hi]
    have h2 : v.testBit i = (v % 2 ^ l).testBit i := by
      rw [Nat.testBit_mod_two_pow]
      simp [hi]
    rw [h1, h2, hmod]

theorem codePathB_congr (t : HuffTree) :
    ∀ (l idx v₁ v₂ s : Nat), (∀ i, i < l → v₁.testBit i = v₂.testBit i) →
      codePathB t idx l v₁ s = codePathB t idx l v₂ s := by
  intro l
  induction l with
  | zero => intro idx v₁ v₂ s _; rfl
  | succ l ih =>
    intro idx v₁ v₂ s hbits
    match l with
    | 0 =>
      simp only [codePathB]
      rw [hbits 0 (by omega)]
    | l' + 1 =>
      simp only [codePathB]
      rw [hbits (l' + 1) (by omega),
        ih _ v₁ v₂ s (fun i hi => hbits i (by omega))]

theorem codePathB_clearTop (t : HuffTree) (l idx v s : Nat) :
    codePathB t idx l (clearTop (l + 1) v) s = codePathB t idx l v s :=
  codePathB_congr t l idx _ v s (fun _ hi => clearTop_testBit hi)

theorem codePathB_ext {t t' : HuffTree} (hn : t'.nodes = t.nodes)
    (hm : t'.numNodes = t.numNodes) :
    ∀ (l idx v s : Nat), codePathB t' idx l v s = codePathB t idx l v s := by
  have hbv : ∀ idx b, t'.branchVal idx b = t.branchVal idx b := by
    intro idx b
    unfold HuffTree.branchVal
    rw [hn]
  intro l
  induction l with
  | zero => intro idx v s; rfl
  | succ l ih =>
    intro idx v s
    match l with
    | 0 => simp only [codePathB, hbv, hm]
    | l' + 1 => simp only [codePathB, hbv, hm, ih]

namespace HuffTree

theorem branchVal_setBranch_self (t : HuffTree) (idx : Nat) (b : Bool)
    (v : Nat) :
    (t.setBranch idx b v).branchVal idx b = v := by
  unfold setBranch branchVal
  simp only [NatMap.get_set_self]
  cases b <;> rfl

theorem branchVal_setBranch_other (t : HuffTree) (idx : Nat) (b : Bool)
    (v : Nat) :
    (t.setBranch idx b v).branchVal idx (!b) = t.branchVal idx (!b) := by
  unfold setBranch branchVal
  simp only [NatMap.get_set_self]
  cases b <;> rfl

theorem branchVal_setBranch_ne (t : HuffTree) {idx idx' : Nat} (b b' : Bool)
    (v : Nat) (hidx : idx < 1024) (hidx' : idx' < 1024) (hne : idx ≠ idx') :
    (t.setBranch idx b v).branchVal idx' b' = t.branchVal idx' b' := by
  unfold setBranch branchVal
  rw [NatMap.get_set_ne _ _ hidx' hidx hne]

@[simp] theorem numNodes_setBranch (t : HuffTree) (idx : Nat) (b : Bool)
    (v : Nat) : (t.setBranch idx b v).numNodes = t.numNodes := rfl

@[simp] theorem tableBits_setBranch (t : HuffTree) (idx : Nat) (b : Bool)
    (v : Nat) : (t.setBranch idx b v).tableBits = t.tableBits := rfl

end HuffTree

theorem maxSymbols_eq : maxSymbols = 288 := rfl

theorem maxNodes_eq : maxNodes = 288 := rfl

theorem invalidEdge_eq : invalidEdge = 576 := rfl

theorem exbind_ok {ε σ τ : Type} {m : Except ε σ} {g : σ → Except ε τ}
    {out : τ} (hok : (m >>= g) = .ok out) :
    ∃ u, m = .ok u ∧ g u = .ok out := by
  rcases m with err | u
  · exact absurd hok (fun hbad => Except.noConfusion hbad)
  · exact ⟨u, rfl, hok⟩

theorem branch_ok {t : HuffTree} {i : Nat} {b : Bool} {e : Nat}
    (h : t.branch i b = .ok e) : i < t.numNodes ∧ e = t.branchVal i b := by
  unfold HuffTree.branch at h
  by_cases hi : i < t.numNodes
  · rw [if_pos hi] at h
    cases h
    exact ⟨hi, rfl⟩
  · rw [if_neg hi] at h
    cases h

theorem allocNode_ok {t : HuffTree} {t₁ : HuffTree} {n : Nat}
    (h : t.allocNode = .ok (t₁, n)) :
    t.numNodes < maxNodes ∧
    t₁ = ⟨t.numNodes + 1, t.nodes.set t.numNodes (invalidEdge, invalidEdge),
      t.tableBits, t.table⟩ ∧
    n = t.numNodes + maxSymbols := by
  unfold HuffTree.allocNode at h
  by_cases hn : t.numNodes < maxNodes
  · rw [if_pos hn] at h
    cases h
    exact ⟨hn, rfl, rfl⟩
  · rw [if_neg hn] at h
    cases h

/-- Full specification of a successful `addLoop` call: it preserves the
table fields and every already-set edge, allocates monotonically, and --
the point of the exercise -- establishes the walked path in the result. -/
theorem addLoop_spec {sym : Nat} (hsym : sym < maxSymbols) :
    ∀ (len : Nat) (t : HuffTree) (idx value : Nat) (t' : HuffTree),
      t.addLoop sym idx len value = .ok t' →
      t.numNodes ≤ maxNodes →
      t.numNodes ≤ t'.numNodes ∧ t'.numNodes ≤ maxNodes ∧
      t'.tableBits = t.tableBits ∧ t'.table = t.table ∧
      (∀ i b, i < t.numNodes → t.branchVal i b ≠ invalidEdge →
        t'.branchVal i b = t.branchVal i b) ∧
      idx < t.numNodes ∧
      codePathB t' idx len value sym = true := by
  intro len
  induction len with
  | zero =>
    intro t idx value t' h _
    exact absurd h (by intro hc; cases hc)
  | succ len ih =>
    intro t idx value t' h hbound
    match len with
    | 0 =>
      rw [show t.addLoop sym idx 1 value = (t.branch idx (codeBitTop 1 value) >>=
        fun e => if e = invalidEdge
          then .ok (t.setBranch idx (codeBitTop 1 value) sym)
          else .error .assertFail) from rfl] at h
      obtain ⟨e, hbr, hrest⟩ := exbind_ok h
      obtain ⟨hidx, hev⟩ := branch_ok hbr
      by_cases hinv : e = invalidEdge
      · rw [if_pos hinv] at hrest
        cases hrest
        refine ⟨le_refl _, by simpa using hbound, rfl, rfl, ?_, hidx, ?_⟩
        · intro i b hi hne
          by_cases hieq : i = idx
          · subst hieq
            by_cases hbeq : b = codeBitTop 1 value
            · refine absurd ?_ hne
              rw [hbeq, ← hev]
              exact hinv
            · have hflip : b = !(codeBitTop 1 value) := by
                cases b <;> cases hb : codeBitTop 1 value <;> simp_all
              rw [hflip]
              exact HuffTree.branchVal_setBranch_other t i _ sym
          · exact HuffTree.branchVal_setBranch_ne t _ b sym
              (by unfold maxNodes at hbound; omega)
              (by unfold maxNodes at hbound; omega) (fun hc => hieq hc.symm)
        · simp only [codePathB, Bool.and_eq_true, decide_eq_true_eq]
          refine ⟨⟨by simpa using hidx, ?_⟩, hsym⟩
          show (t.setBranch idx (codeBitTop 1 value) sym).branchVal idx
            (value.testBit 0) = sym
          have : codeBitTop 1 value = value.testBit 0 := rfl
          rw [← this]
          exact HuffTree.branchVal_setBranch_self t idx _ sym
      · rw [if_neg hinv] at hrest
        cases hrest
    | len' + 1 =>
      rw [show t.addLoop sym idx (len' + 2) value =
        (t.branch idx (codeBitTop (len' + 2) value) >>= fun e =>
          if e = invalidEdge then
            (t.allocNode >>= fun p =>
              (p.1.setBranch idx (codeBitTop (len' + 2) value) p.2).addLoop sym
                (p.2 - maxSymbols) (len' + 1) (clearTop (len' + 2) value))
          else if maxSymbols ≤ e then
            t.addLoop sym (e - maxSymbols) (len' + 1) (clearTop (len' + 2) value)
          else .error .assertFail) from rfl] at h
      obtain ⟨e, hbr, hrest⟩ := exbind_ok h
      obtain ⟨hidx, hev⟩ := branch_ok hbr
      set b := codeBitTop (len' + 2) value with hbdef
      by_cases hinv : e = invalidEdge
      · rw [if_pos hinv] at hrest
        obtain ⟨⟨t₁, n⟩, hal, hrec⟩ := exbind_ok hrest
        obtain ⟨hcap, ht₁, hn⟩ := allocNode_ok hal
        subst ht₁ hn
        set t₂ := (⟨t.numNodes + 1,
          t.nodes.set t.numNodes (invalidEdge, invalidEdge), t.tableBits,
          t.table⟩ : HuffTree).setBranch idx b (t.numNodes + maxSymbols)
          with ht₂
        have hshift : t.numNodes + maxSymbols - maxSymbols = t.numNodes := by
          omega
        rw [hshift] at hrec
        have hidx1024 : idx < 1024 := by unfold maxNodes at hbound; omega
        have hnum1024 : t.numNodes < 1024 := by unfold maxNodes at hcap; omega
        have ht₂num : t₂.numNodes = t.numNodes + 1 := rfl
        obtain ⟨hm1, hm2, hm3, hm4, hmono, hidx2, hpath⟩ :=
          ih t₂ t.numNodes (clearTop (len' + 2) value) t' hrec
            (by rw [ht₂num]; unfold maxNodes at hcap ⊢; omega)
        have ht₂self : t₂.branchVal idx b = t.numNodes + maxSymbols := by
          rw [ht₂]
          exact HuffTree.branchVal_setBranch_self _ idx b _
        have ht₂pres : ∀ i b', i < t.numNodes → ¬(i = idx ∧ b' = b) →
            t₂.branchVal i b' = t.branchVal i b' := by
          intro i b' hi hne
          rw [ht₂]
          have halloc : ∀ bb, (⟨t.numNodes + 1,
              t.nodes.set t.numNodes (invalidEdge, invalidEdge), t.tableBits,
              t.table⟩ : HuffTree).branchVal i bb = t.branchVal i bb := by
            intro bb
            unfold HuffTree.branchVal
            simp only
            rw [NatMap.get_set_ne _ _ (by omega) hnum1024 (by omega)]
          by_cases hieq : i = idx
          · have hbne : b' = !b := by
              rcases hb' : b' <;> rcases hbb : b <;> simp_all
            rw [hieq, hbne, HuffTree.branchVal_setBranch_other, ← hieq, halloc]
          · rw [HuffTree.branchVal_setBranch_ne _ _ _ _ hidx1024
              (by omega) (fun hc => hieq hc.symm), halloc]
        refine ⟨by omega, hm2, by rw [hm3]; rfl, by rw [hm4]; rfl, ?_,
          hidx, ?_⟩
        · intro i b' hi hne
          have hn576 : ¬(i = idx ∧ b' = b) := by
            rintro ⟨h1, h2⟩
            subst h1; subst h2
            exact hne (by rw [← hev]; exact hinv)
          rw [hmono i b' (by rw [ht₂num]; omega)
            (by rw [ht₂pres i b' hi hn576]; exact hne),
            ht₂pres i b' hi hn576]
        · simp only [codePathB, Bool.and_eq_true, decide_eq_true_eq]
          have hedge : t'.branchVal idx (value.testBit (len' + 1)) =
              t.numNodes + maxSymbols := by
            have := hmono idx b (by rw [ht₂num]; omega)
              (by rw [ht₂self]; unfold invalidEdge maxSymbols maxNodes at *; omega)
            show t'.branchVal idx b = _
            rw [this, ht₂self]
          refine ⟨by omega, ?_⟩
          rw [hedge]
          have hsub : t.numNodes + maxSymbols - maxSymbols = t.numNodes := by
            omega
          rw [hsub]
          refine ⟨⟨by unfold maxSymbols; omega, by omega⟩, ?_⟩
          rw [← codePathB_clearTop t' (len' + 1) t.numNodes value sym]
          exact hpath
      · rw [if_neg hinv] at hrest
        by_cases hge : maxSymbols ≤ e
        · rw [if_pos hge] at hrest
          obtain ⟨hm1, hm2, hm3, hm4, hmono, hidx2, hpath⟩ :=
            ih t (e - maxSymbols) (clearTop (len' + 2) value) t' hrest hbound
          refine ⟨hm1, hm2, hm3, hm4, hmono, hidx, ?_⟩
          simp only [codePathB, Bool.and_eq_true, decide_eq_true_eq]
          have hedge : t'.branchVal idx (value.testBit (len' + 1)) = e := by
            have := hmono idx b hidx (by rw [← hev]; exact hinv)
            show t'.branchVal idx b = e
            rw [this, ← hev]
          refine ⟨by omega, ?_⟩
          rw [hedge]
          refine ⟨⟨hge, by omega⟩, ?_⟩
          rw [← codePathB_clearTop t' (len' + 1) (e - maxSymbols) value sym]
          exact hpath
        · rw [if_neg hge] at hrest
          cases hrest

/-- Specification of a successful `add`. -/
theorem add_spec {t : HuffTree} {sym : Nat} {c : HuffCode} {t' : HuffTree}
    (h : t.add sym c = .ok t') (hbound : t.numNodes ≤ maxNodes) :
    t.numNodes ≤ t'.numNodes ∧ t'.numNodes ≤ maxNodes ∧ 0 < t'.numNodes ∧
    t'.tableBits = t.tableBits ∧ t'.table = t.table ∧
    (∀ i b, i < t.numNodes → t.branchVal i b ≠ invalidEdge →
      t'.branchVal i b = t.branchVal i b) ∧
    sym < maxSymbols ∧ 0 < c.len ∧ c.len ≤ max_bits ∧
    codePathB t' 0 c.len c.value sym = true := by
  unfold HuffTree.add at h
  by_cases hg : sym < maxSymbols ∧ c.validB = true ∧ c.len ≤ max_bits
  · rw [if_pos hg] at h
    obtain ⟨hsym, hvalid, hlen15⟩ := hg
    have hlen0 : 0 < c.len := by
      unfold HuffCode.validB at hvalid
      simp only [Bool.and_eq_true, decide_eq_true_eq] at hvalid
      exact hvalid.1.1
    by_cases h0 : t.numNodes = 0
    · rw [if_pos h0] at h
      obtain ⟨hm1, hm2, hm3, hm4, hmono, hidx, hpath⟩ :=
        addLoop_spec hsym c.len _ 0 c.value t' h
          (show (1 : Nat) ≤ maxNodes by unfold maxNodes; omega)
      refine ⟨by rw [h0]; omega, hm2, by omega, hm3, hm4, ?_, hsym, hlen0,
        hlen15, hpath⟩
      intro i b hi _
      rw [h0] at hi
      omega
    · rw [if_neg h0] at h
      obtain ⟨hm1, hm2, hm3, hm4, hmono, hidx, hpath⟩ :=
        addLoop_spec hsym c.len t 0 c.value t' h hbound
      exact ⟨hm1, hm2, by omega, hm3, hm4, hmono, hsym, hlen0, hlen15, hpath⟩
  · rw [if_neg hg] at h
    cases h

/-- A path present after an insertion survives all later (successful)
insertions, given their edge-preservation property. -/
theorem codePathB_mono {t1 t' : HuffTree}
    (hnum : t1.numNodes ≤ t'.numNodes) (hcap : t1.numNodes ≤ maxNodes)
    (hmono : ∀ j b, j < t1.numNodes → t1.branchVal j b ≠ invalidEdge →
      t'.branchVal j b = t1.branchVal j b) :
    ∀ (l idx v s : Nat), codePathB t1 idx l v s = true →
      codePathB t' idx l v s = true := by
  intro l
  induction l with
  | zero => intro idx v s hp; cases hp
  | succ l ihl =>
    intro idx v s hp
    rcases l with _ | l'
    · simp only [codePathB, Bool.and_eq_true, decide_eq_true_eq] at hp ⊢
      obtain ⟨⟨hi1, hi2⟩, hi3⟩ := hp
      refine ⟨⟨by omega, ?_⟩, hi3⟩
      rw [hmono idx _ hi1 (by
        rw [hi2, invalidEdge_eq]
        rw [maxSymbols_eq] at hi3
        omega)]
      exact hi2
    · simp only [codePathB, Bool.and_eq_true, decide_eq_true_eq] at hp ⊢
      obtain ⟨hi1, ⟨hi2, hi3⟩, hi4⟩ := hp
      have hedge : t'.branchVal idx (v.testBit (l' + 1)) =
          t1.branchVal idx (v.testBit (l' + 1)) := by
        refine hmono idx _ hi1 ?_
        rw [maxSymbols_eq] at hi2 hi3
        rw [invalidEdge_eq]
        rw [maxNodes_eq] at hcap
        omega
      rw [hedge]
      refine ⟨by omega, ⟨hi2, ?_⟩, ihl _ _ _ hi4⟩
      rw [maxSymbols_eq] at hi3 ⊢
      omega

/-- Specification of a successful `addAll`: every inserted code's path is
present in the final tree. -/
theorem addAll_spec :
    ∀ (codes : List HuffCode) (i : Nat) (t t' : HuffTree),
      addAll t codes i = .ok t' →
      t.numNodes ≤ maxNodes →
      t.numNodes ≤ t'.numNodes ∧ t'.numNodes ≤ maxNodes ∧
      t'.tableBits = t.tableBits ∧ t'.table = t.table ∧
      (∀ j b, j < t.numNodes → t.branchVal j b ≠ invalidEdge →
        t'.branchVal j b = t.branchVal j b) ∧
      (∀ k, k < codes.length → 0 < (codes.getD k ⟨0, 0⟩).len →
        codePathB t' 0 (codes.getD k ⟨0, 0⟩).len (codes.getD k ⟨0, 0⟩).value
          (i + k) = true) := by
  intro codes
  induction codes with
  | nil =>
    intro i t t' h hbound
    cases h
    exact ⟨le_refl _, hbound, rfl, rfl, fun _ _ _ _ => rfl,
      fun k hk _ => by simp at hk⟩
  | cons c rest ih =>
    intro i t t' h hbound
    unfold addAll at h
    by_cases hc : 0 < c.len
    · rw [if_pos hc] at h
      obtain ⟨t1, hadd, hrest⟩ := exbind_ok h
      obtain ⟨ha1, ha2, ha3, ha4, ha5, hamono, hisym, hclen, hclen15, hapath⟩ :=
        add_spec hadd hbound
      obtain ⟨hr1, hr2, hr3, hr4, hrmono, hrpaths⟩ := ih (i + 1) t1 t' hrest ha2
      refine ⟨by omega, hr2, by rw [hr3, ha4], by rw [hr4, ha5], ?_, ?_⟩
      · intro j b hj hne
        rw [hrmono j b (by omega) (by rw [hamono j b hj hne]; exact hne),
          hamono j b hj hne]
      · intro k hk hklen
        rcases k with _ | k'
        · simp only [List.getD_cons_zero] at hklen ⊢
          rw [Nat.add_zero]
          exact codePathB_mono hr1 ha2 hrmono c.len 0 c.value i hapath
        · simp only [List.getD_cons_succ] at hklen ⊢
          have := hrpaths k' (by simpa using hk) hklen
          rw [show i + (k' + 1) = i + 1 + k' from by omega]
          exact this
    · rw [if_neg hc] at h
      obtain ⟨hr1, hr2, hr3, hr4, hrmono, hrpaths⟩ := ih (i + 1) t t' h hbound
      refine ⟨hr1, hr2, hr3, hr4, hrmono, ?_⟩
      intro k hk hklen
      rcases k with _ | k'
      · simp only [List.getD_cons_zero] at hklen
        omega
      · simp only [List.getD_cons_succ] at hklen ⊢
        have := hrpaths k' (by simpa using hk) hklen
        rw [show i + (k' + 1) = i + 1 + k' from by omega]
        exact this

theorem buildTable_ok {t : HuffTree} {tb : Nat} :
    ∀ (n i : Nat) {tbl : List Nat}, t.buildTable tb i n = .ok tbl →
      tbl.length = n ∧
      ∀ k, k < n → ∃ e, t.tableEntryFor tb (i + k) = .ok e ∧ tbl.getD k 0 = e := by
  intro n
  induction n with
  | zero =>
    intro i tbl h
    cases h
    exact ⟨rfl, fun k hk => by omega⟩
  | succ n ih =>
    intro i tbl h
    rw [show t.buildTable tb i (n + 1) = (t.tableEntryFor tb i >>= fun e =>
      (t.buildTable tb (i + 1) n >>= fun rest => .ok (e :: rest))) from rfl] at h
    obtain ⟨e, he, h2⟩ := exbind_ok h
    obtain ⟨rest, hrest, h3⟩ := exbind_ok h2
    cases h3
    obtain ⟨hlen, hall⟩ := ih (i + 1) hrest
    refine ⟨by simp [hlen], ?_⟩
    intro k hk
    rcases k with _ | k'
    · exact ⟨e, by rw [Nat.add_zero]; exact he, rfl⟩
    · obtain ⟨e', he', hd⟩ := hall k' (by omega)
      exact ⟨e', by rw [show i + (k' + 1) = i + 1 + k' from by omega]; exact he',
        by simpa using hd⟩

theorem make_tables_ok {t₁ t : HuffTree} {tb : Nat}
    (h : t₁.make_tables tb = .ok t) :
    0 < tb ∧ tb ≤ maxTableBits ∧ 0 < t₁.numNodes ∧
    t.numNodes = t₁.numNodes ∧ t.nodes = t₁.nodes ∧ t.tableBits = tb ∧
    t₁.buildTable tb 0 (2 ^ tb) = .ok t.table := by
  unfold HuffTree.make_tables at h
  by_cases hg : 0 < tb ∧ tb ≤ maxTableBits ∧ 0 < t₁.numNodes
  · rw [if_pos hg] at h
    obtain ⟨tbl, htbl, h2⟩ := exbind_ok h
    cases h2
    exact ⟨hg.1, hg.2.1, hg.2.2, rfl, rfl, rfl, htbl⟩
  · rw [if_neg hg] at h
    cases h

theorem make_huffman_tree_ok {codes : List HuffCode} {tb : Nat} {t : HuffTree}
    (h : make_huffman_tree codes tb = .ok t) :
    ∃ t₁, codes.length ≤ maxSymbols ∧ addAll emptyTree codes 0 = .ok t₁ ∧
      t₁.make_tables tb = .ok t := by
  unfold make_huffman_tree at h
  by_cases hg : codes.length ≤ maxSymbols
  · rw [if_pos hg] at h
    obtain ⟨t₁, h1, h2⟩ := exbind_ok h
    exact ⟨t₁, hg, h1, h2⟩
  · rw [if_neg hg] at h
    cases h

/-- The summary facts a built decoder satisfies, including the walked
path of every inserted code. -/
theorem make_tree_paths {codes : List HuffCode} {tb : Nat} {t : HuffTree}
    (h : make_huffman_tree codes tb = .ok t) :
    t.numNodes ≤ maxNodes ∧ 0 < t.numNodes ∧ t.tableBits = tb ∧
    0 < tb ∧ tb ≤ maxTableBits ∧
    ∀ k, k < codes.length → 0 < (codes.getD k ⟨0, 0⟩).len →
      codePathB t 0 (codes.getD k ⟨0, 0⟩).len (codes.getD k ⟨0, 0⟩).value k
        = true := by
  obtain ⟨t₁, hlen, hadd, htab⟩ := make_huffman_tree_ok h
  obtain ⟨_, hcap, _, _, _, hpaths⟩ :=
    addAll_spec codes 0 emptyTree t₁ hadd (by rw [maxNodes_eq]; exact Nat.zero_le _)
  obtain ⟨htb1, htb2, hpos, hnum, hnodes, hbits, _⟩ := make_tables_ok htab
  refine ⟨by omega, by omega, hbits, htb1, htb2, ?_⟩
  intro k hk hklen
  rw [codePathB_ext hnodes hnum]
  simpa using hpaths k hk hklen

/-! ## Table entries and code-bit views -/

theorem entry_fields {l idx : Nat} (hidx : idx < 4096) :
    entryLen ((l <<< 12) ||| idx) = l ∧ entryIndex ((l <<< 12) ||| idx) = idx := by
  have h4096 : idx < 2 ^ 12 := by norm_num; omega
  have hor : (l <<< 12) ||| idx = 2 ^ 12 * l + idx := by
    rw [Nat.shiftLeft_eq, Nat.mul_comm l (2 ^ 12)]
    exact (Nat.mul_add_lt_is_or h4096 l).symm
  constructor
  · unfold entryLen
    rw [hor, Nat.shiftRight_eq_div_pow,
      Nat.mul_add_div (by norm_num : (0:Nat) < 2 ^ 12),
      Nat.div_eq_of_lt h4096, Nat.add_zero]
  · unfold entryIndex
    rw [hor]
    have hmask : (0xfff : Nat) = 2 ^ 12 - 1 := by norm_num
    rw [hmask, Nat.and_pow_two_sub_one_eq_mod, Nat.mul_add_mod]
    exact Nat.mod_eq_of_lt h4096

@[simp] theorem codeBitsAux_length (l v : Nat) : (codeBitsAux l v).length = l := by
  induction l generalizing v with
  | zero => rfl
  | succ n ih => simp [codeBitsAux, ih]

theorem codeBitsAux_getD (l v : Nat) :
    ∀ i, i < l → (codeBitsAux l v).getD i false = v.testBit (l - 1 - i) := by
  induction l with
  | zero => intro i hi; omega
  | succ n ih =>
    intro i hi
    rcases i with _ | i'
    · simp [codeBitsAux]
    · simp only [codeBitsAux, List.getD_cons_succ]
      rw [ih i' (by omega)]
      congr 1
      omega

theorem codeBitsAux_drop (l v k : Nat) (hk : k ≤ l) :
    (codeBitsAux l v).drop k = codeBitsAux (l - k) v := by
  induction k with
  | zero => simp
  | succ k' ih =>
    have h1 : l - k' ≥ 1 := by omega
    have h2 : (codeBitsAux l v).drop (k' + 1) =
        ((codeBitsAux l v).drop k').drop 1 := by
      rw [← List.drop_drop]
    rw [h2, ih (by omega)]
    rcases hh : l - k' with _ | m
    · omega
    · simp only [codeBitsAux, List.drop_succ_cons, List.drop_zero]
      congr 1
      omega

theorem lsbValue_testBit (L : List Bool) :
    ∀ i, (lsbValue L).testBit i = L.getD i false := by
  induction L with
  | nil =>
    intro i
    show (0 : Nat).testBit i = false
    simp
  | cons b r ih =>
    intro i
    have hval : lsbValue (b :: r) = (if b then 1 else 0) + 2 * lsbValue r := rfl
    rcases i with _ | i'
    · rw [Nat.testBit_zero, hval]
      rcases b with _ | _ <;> simp [Nat.add_mul_mod_self_left]
    · rw [Nat.testBit_succ, hval]
      have hdiv : ((if b then 1 else 0) + 2 * lsbValue r) / 2 = lsbValue r := by
        rcases b with _ | _ <;> simp [Nat.add_mul_div_left]
      rw [hdiv, ih i']
      rfl

/-! ## Small helpers -/

theorem getD_take {α : Type} (d : α) :
    ∀ (X : List α) (n i : Nat), i < n → (X.take n).getD i d = X.getD i d := by
  intro X
  induction X with
  | nil => intro n i h; simp
  | cons a r ih =>
    intro n i h
    rcases n with _ | n'
    · omega
    rcases i with _ | i'
    · simp
    · simp only [List.take_succ_cons, List.getD_cons_succ]
      exact ih n' i' (by omega)

theorem bne_if_one (b : Bool) : (((if b then 1 else 0) : Nat) != 0) = b := by
  rcases b with _ | _ <;> rfl

theorem mkTableEntry_ok {len idx e : Nat} (h : mkTableEntry len idx = .ok e) :
    0 < len ∧ len ≤ max_bits ∧ idx < invalidEdge ∧ e = (len <<< 12) ||| idx := by
  unfold mkTableEntry at h
  by_cases hg : 0 < len ∧ len ≤ max_bits ∧ idx < invalidEdge
  · rw [if_pos hg] at h
    cases h
    exact ⟨hg.1, hg.2.1, hg.2.2, rfl⟩
  · rw [if_neg hg] at h
    cases h

theorem add_ok_len {t : HuffTree} {sym : Nat} {c : HuffCode} {t' : HuffTree}
    (h : t.add sym c = .ok t') : c.len ≤ max_bits := by
  unfold HuffTree.add at h
  by_cases hg : sym < maxSymbols ∧ c.validB = true ∧ c.len ≤ max_bits
  · exact hg.2.2
  · rw [if_neg hg] at h
    cases h

theorem addAll_len :
    ∀ (codes : List HuffCode) (i : Nat) (t t' : HuffTree),
      addAll t codes i = .ok t' → ∀ k, k < codes.length →
      (codes.getD k ⟨0, 0⟩).len ≤ max_bits := by
  intro codes
  induction codes with
  | nil => intro i t t' h k hk; simp at hk
  | cons c r ih =>
    intro i t t' h k hk
    unfold addAll at h
    by_cases hc : 0 < c.len
    · rw [if_pos hc] at h
      obtain ⟨t1, hadd, hrest⟩ := exbind_ok h
      rcases k with _ | k'
      · simpa using add_ok_len hadd
      · exact ih (i + 1) t1 t' hrest k' (by simpa using hk)
    · rw [if_neg hc] at h
      rcases k with _ | k'
      · simp only [List.getD_cons_zero]
        rw [max_bits]
        omega
      · exact ih (i + 1) t t' h k' (by simpa using hk)

/-! ## The prefix-table walk follows code paths -/

theorem tableWalkLoop_unfold (t : HuffTree) (tb fuel len index val : Nat) :
    t.tableWalkLoop tb fuel len index val =
      if len < tb ∧ maxSymbols ≤ index then
        match fuel with
        | 0 => .error .fuelOut
        | fuel + 1 =>
          t.branch (index - maxSymbols) (val.testBit 0) >>= fun e =>
            t.tableWalkLoop tb fuel (len + 1) e (val / 2)
      else .ok (len, index) := by
  rcases fuel with _ | f <;> rfl

theorem decodeLoop_unfold (t : HuffTree) (fuel value : Nat) (bs : BitStream) :
    decodeLoop t fuel value bs =
      if value < maxSymbols then .ok (value, bs)
      else match fuel with
        | 0 => .error .fuelOut
        | fuel + 1 =>
          bs.get_bit >>= fun p =>
            t.branch (value - maxSymbols) (p.1 != 0) >>= fun v =>
              decodeLoop t fuel v p.2 := by
  rcases fuel with _ | f <;> rfl

theorem tableWalkLoop_fits {t : HuffTree} {tb : Nat} :
    ∀ (l j v s len val fuel : Nat),
      codePathB t j l v s = true →
      (∀ i, i < l → val.testBit i = v.testBit (l - 1 - i)) →
      len + l ≤ tb → l ≤ fuel →
      t.tableWalkLoop tb fuel len (maxSymbols + j) val = .ok (len + l, s) := by
  intro l
  induction l with
  | zero => intro j v s len val fuel hp; cases hp
  | succ l ih =>
    intro j v s len val fuel hp hbits hlen hfuel
    have hcond : len < tb ∧ maxSymbols ≤ maxSymbols + j := ⟨by omega, by omega⟩
    rcases fuel with _ | fuel'
    · omega
    rw [tableWalkLoop_unfold, if_pos hcond]
    rcases l with _ | l'
    · simp only [codePathB, Bool.and_eq_true, decide_eq_true_eq] at hp
      obtain ⟨⟨hj, hbv⟩, hs⟩ := hp
      show (t.branch (maxSymbols + j - maxSymbols) (val.testBit 0) >>= fun e =>
        t.tableWalkLoop tb fuel' (len + 1) e (val / 2)) = .ok (len + 1, s)
      have hsub : maxSymbols + j - maxSymbols = j := by omega
      rw [hsub, HuffTree.branch, if_pos hj]
      have hbit : val.testBit 0 = v.testBit 0 := by
        have h0 := hbits 0 (by omega)
        simpa using h0
      rw [hbit, hbv]
      show t.tableWalkLoop tb fuel' (len + 1) s (val / 2) = .ok (len + 1, s)
      rw [tableWalkLoop_unfold,
        if_neg (by rw [maxSymbols_eq] at hs ⊢; omega)]
    · have hp' := hp
      rw [show l' + 1 + 1 = l' + 2 from rfl] at hp'
      simp only [codePathB, Bool.and_eq_true, decide_eq_true_eq] at hp'
      obtain ⟨hj, ⟨hge, hltn⟩, hrest⟩ := hp'
      show (t.branch (maxSymbols + j - maxSymbols) (val.testBit 0) >>= fun e =>
        t.tableWalkLoop tb fuel' (len + 1) e (val / 2)) = .ok (len + (l' + 2), s)
      have hsub : maxSymbols + j - maxSymbols = j := by omega
      rw [hsub, HuffTree.branch, if_pos hj]
      have hbit : val.testBit 0 = v.testBit (l' + 1) := by
        have h0 := hbits 0 (by omega)
        simpa using h0
      rw [hbit]
      show t.tableWalkLoop tb fuel' (len + 1)
        (t.branchVal j (v.testBit (l' + 1))) (val / 2) = .ok (len + (l' + 2), s)
      have hrw : t.branchVal j (v.testBit (l' + 1)) =
          maxSymbols + (t.branchVal j (v.testBit (l' + 1)) - maxSymbols) := by
        omega
      have hbits' : ∀ i, i < l' + 1 →
          (val / 2).testBit i = v.testBit (l' + 1 - 1 - i) := by
        intro i hi
        rw [Nat.testBit_div_two]
        have h1 := hbits (i + 1) (by omega)
        rw [h1]
        congr 1
        omega
      have hout := ih (t.branchVal j (v.testBit (l' + 1)) - maxSymbols) v s
        (len + 1) (val / 2) fuel' hrest hbits' (by omega) (by omega)
      rw [hrw, hout]
      have heq : len + 1 + (l' + 1) = len + (l' + 2) := by omega
      rw [heq]

theorem tableWalkLoop_deep {t : HuffTree} {tb : Nat} :
    ∀ (l j v s len val fuel : Nat),
      codePathB t j l v s = true →
      (∀ i, i < tb - len → val.testBit i = v.testBit (l - 1 - i)) →
      tb - len < l → len ≤ tb → tb ≤ len + fuel →
      ∃ j', t.tableWalkLoop tb fuel len (maxSymbols + j) val =
          .ok (tb, maxSymbols + j') ∧
        codePathB t j' (l - (tb - len)) v s = true := by
  intro l
  induction l with
  | zero => intro j v s len val fuel hp; cases hp
  | succ l ih =>
    intro j v s len val fuel hp hbits hdeep hle hfuel
    by_cases hstop : len = tb
    · refine ⟨j, ?_, ?_⟩
      · rw [tableWalkLoop_unfold, if_neg (by omega)]
        rw [hstop]
      · have heq : l + 1 - (tb - len) = l + 1 := by omega
        rw [heq]
        exact hp
    · have hlt : len < tb := by omega
      rcases fuel with _ | fuel'
      · omega
      have hcond : len < tb ∧ maxSymbols ≤ maxSymbols + j := ⟨hlt, by omega⟩
      rcases l with _ | l'
      · omega
      have hp' := hp
      rw [show l' + 1 + 1 = l' + 2 from rfl] at hp'
      simp only [codePathB, Bool.and_eq_true, decide_eq_true_eq] at hp'
      obtain ⟨hj, ⟨hge, hltn⟩, hrest⟩ := hp'
      rw [tableWalkLoop_unfold, if_pos hcond]
      have hsub : maxSymbols + j - maxSymbols = j := by omega
      have hbit : val.testBit 0 = v.testBit (l' + 1) := by
        have h0 := hbits 0 (by omega)
        simpa using h0
      have hrw : t.branchVal j (v.testBit (l' + 1)) =
          maxSymbols + (t.branchVal j (v.testBit (l' + 1)) - maxSymbols) := by
        omega
      have hbits' : ∀ i, i < tb - (len + 1) →
          (val / 2).testBit i = v.testBit (l' + 1 - 1 - i) := by
        intro i hi
        rw [Nat.testBit_div_two]
        have h1 := hbits (i + 1) (by omega)
        rw [h1]
        congr 1
        omega
      obtain ⟨j', hwalk, hpath⟩ := ih
        (t.branchVal j (v.testBit (l' + 1)) - maxSymbols) v s (len + 1)
        (val / 2) fuel' hrest hbits' (by omega) (by omega) (by omega)
      refine ⟨j', ?_, ?_⟩
      · show (t.branch (maxSymbols + j - maxSymbols) (val.testBit 0) >>= fun e =>
          t.tableWalkLoop tb fuel' (len + 1) e (val / 2)) =
            .ok (tb, maxSymbols + j')
        rw [hsub, HuffTree.branch, if_pos hj, hbit]
        show t.tableWalkLoop tb fuel' (len + 1)
          (t.branchVal j (v.testBit (l' + 1))) (val / 2) =
            .ok (tb, maxSymbols + j')
        rw [hrw, hwalk]
      · have heq : l' + 1 + 1 - (tb - len) = l' + 1 - (tb - (len + 1)) := by
          omega
        rw [heq]
        exact hpath

/-! ## The bit-by-bit decode walk follows code paths -/

theorem decodeLoop_spec {t : HuffTree} :
    ∀ (l j v s fuel : Nat) (bs : BitStream) (rest : List Bool),
      codePathB t j l v s = true → bs.Inv →
      bs.remBits = codeBitsAux l v ++ rest → l ≤ fuel →
      ∃ bs', decodeLoop t fuel (maxSymbols + j) bs = .ok (s, bs') ∧
        bs'.Inv ∧ bs'.remBits = rest ∧ bs'.data = bs.data := by
  intro l
  induction l with
  | zero => intro j v s fuel bs rest hp; cases hp
  | succ l ih =>
    intro j v s fuel bs rest hp hinv hrem hfuel
    rcases fuel with _ | fuel'
    · omega
    rcases l with _ | l'
    · simp only [codePathB, Bool.and_eq_true, decide_eq_true_eq] at hp
      obtain ⟨⟨hj, hbv⟩, hs⟩ := hp
      have hrem1 : bs.remBits = v.testBit 0 :: rest := by
        rw [hrem]
        rfl
      obtain ⟨bs1, hget, hinv1, hrem1', hdata1⟩ :=
        BitStream.get_bit_spec hinv hrem1
      refine ⟨bs1, ?_, hinv1, hrem1', hdata1⟩
      rw [decodeLoop_unfold, if_neg (by rw [maxSymbols_eq]; omega), hget]
      show (t.branch (maxSymbols + j - maxSymbols)
          (((if v.testBit 0 then 1 else 0) : Nat) != 0) >>= fun v2 =>
        decodeLoop t fuel' v2 bs1) = .ok (s, bs1)
      rw [bne_if_one, show maxSymbols + j - maxSymbols = j from by omega,
        HuffTree.branch, if_pos hj, hbv]
      show decodeLoop t fuel' s bs1 = .ok (s, bs1)
      rw [decodeLoop_unfold, if_pos hs]
    · have hp' := hp
      rw [show l' + 1 + 1 = l' + 2 from rfl] at hp'
      simp only [codePathB, Bool.and_eq_true, decide_eq_true_eq] at hp'
      obtain ⟨hj, ⟨hge, hltn⟩, hrest⟩ := hp'
      have hrem1 : bs.remBits = v.testBit (l' + 1) ::
          (codeBitsAux (l' + 1) v ++ rest) := by
        rw [hrem]
        rfl
      obtain ⟨bs1, hget, hinv1, hrem1', hdata1⟩ :=
        BitStream.get_bit_spec hinv hrem1
      have hrw : t.branchVal j (v.testBit (l' + 1)) =
          maxSymbols + (t.branchVal j (v.testBit (l' + 1)) - maxSymbols) := by
        omega
      obtain ⟨bs2, hloop, hinv2, hrem2, hdata2⟩ :=
        ih (t.branchVal j (v.testBit (l' + 1)) - maxSymbols) v s fuel' bs1 rest
          hrest hinv1 hrem1' (by omega)
      refine ⟨bs2, ?_, hinv2, hrem2, by rw [hdata2, hdata1]⟩
      rw [decodeLoop_unfold, if_neg (by rw [maxSymbols_eq]; omega), hget]
      show (t.branch (maxSymbols + j - maxSymbols)
          (((if v.testBit (l' + 1) then 1 else 0) : Nat) != 0) >>= fun v2 =>
        decodeLoop t fuel' v2 bs1) = .ok (s, bs2)
      rw [bne_if_one, show maxSymbols + j - maxSymbols = j from by omega,
        HuffTree.branch, if_pos hj]
      show decodeLoop t fuel' (t.branchVal j (v.testBit (l' + 1))) bs1 =
        .ok (s, bs2)
      rw [hrw, hloop]

/-! ## Constant views -/

theorem max_bits_eq : max_bits = 15 := rfl

theorem maxTableBits_eq : maxTableBits = 9 := rfl

theorem decodeFuel_eq : decodeFuel = 576 := rfl

theorem ok_bind {α β : Type} (a : α) (f : α → Except Derr β) :
    (Except.ok a >>= f) = f a := rfl

/-! ## Correctness of `decode` on a built tree -/

theorem decode_spec {codes : List HuffCode} {tb : Nat} {t : HuffTree} {k : Nat}
    {bs : BitStream} {rest : List Bool}
    (hb : make_huffman_tree codes tb = .ok t)
    (hk : k < codes.length) (hlen : 0 < (codes.getD k ⟨0, 0⟩).len)
    (hinv : bs.Inv)
    (hrem : bs.remBits = codeBits (codes.getD k ⟨0, 0⟩) ++ rest) :
    ∃ bs', decode t bs = .ok (k, bs') ∧ bs'.Inv ∧
      bs'.remBits = rest ∧ bs'.data = bs.data := by
  obtain ⟨hcap, hposn, htb, htbpos, htbmax, hpaths⟩ := make_tree_paths hb
  obtain ⟨t₁, hclen, hadd, htabs⟩ := make_huffman_tree_ok hb
  obtain ⟨_, _, _, hnum, hnodes, _, hbuild⟩ := make_tables_ok htabs
  have hpath := hpaths k hk hlen
  have hl15 : (codes.getD k ⟨0, 0⟩).len ≤ max_bits :=
    addAll_len codes 0 emptyTree t₁ hadd k hk
  rw [max_bits_eq] at hl15
  have hksym : k < maxSymbols := by
    rw [maxSymbols_eq]
    rw [maxSymbols_eq] at hclen
    omega
  set l := (codes.getD k ⟨0, 0⟩).len with hldef
  set v := (codes.getD k ⟨0, 0⟩).value with hvdef
  have hL : codeBits (codes.getD k ⟨0, 0⟩) = codeBitsAux l v := rfl
  rw [hL] at hrem
  rw [decode]
  by_cases hfast : t.tableBits ≤ bs.potentially_available_bits
  · rw [if_pos hfast]
    have henough : tb ≤ bs.remBits.length := by
      have h1 := BitStream.potentially_available_le bs
      rw [htb] at hfast
      omega
    obtain ⟨bs1, hens, hinv1, hrem1, hav1, hdata1⟩ :=
      BitStream.ensure_bits_spec hinv htbpos
        (by rw [maxTableBits_eq] at htbmax; omega) henough
    have hpeek := BitStream.peek_bits_spec hinv1 htbpos hav1
    set w := lsbValue (bs1.remBits.take tb) with hwdef
    have hw : w < 2 ^ tb := by
      have h1 : (bs1.remBits.take tb).length ≤ tb := by simp
      have h2 := lsbValue_lt (bs1.remBits.take tb)
      calc w < 2 ^ (bs1.remBits.take tb).length := h2
        _ ≤ 2 ^ tb := Nat.pow_le_pow_right (by omega) h1
    have hwbit : ∀ i, i < l → i < tb → w.testBit i = v.testBit (l - 1 - i) := by
      intro i hil hitb
      rw [hwdef, lsbValue_testBit, hrem1, hrem,
        getD_take false (codeBitsAux l v ++ rest) tb i hitb,
        List.getD_append _ _ _ _ (by simpa using hil),
        codeBitsAux_getD l v i hil]
    have hand : w &&& ((1 <<< tb) - 1) = w := by
      have h1 : (1 <<< tb) - 1 = 2 ^ tb - 1 := by
        rw [Nat.shiftLeft_eq, one_mul]
      rw [h1, Nat.and_pow_two_sub_one_eq_mod, Nat.mod_eq_of_lt hw]
    have hnext : t.next_from_bits w tb = .ok (t.table.getD w 0) := by
      rw [HuffTree.next_from_bits, htb, if_pos ⟨by omega, le_refl tb⟩, hand]
    obtain ⟨hlen2, hall⟩ := buildTable_ok (2 ^ tb) 0 hbuild
    obtain ⟨e, hent, hgetd⟩ := hall w hw
    rw [Nat.zero_add] at hent
    rw [HuffTree.tableEntryFor] at hent
    by_cases hfits : l ≤ tb
    · -- the whole code fits inside the prefix table
      have hpath₁ : codePathB t₁ 0 l v k = true := by
        rw [← codePathB_ext hnodes hnum l 0 v k]
        exact hpath
      have hwbit' : ∀ i, i < l → w.testBit i = v.testBit (l - 1 - i) := by
        intro i hi
        exact hwbit i hi (by omega)
      have hwalk : t₁.tableWalkLoop tb tb 0 (maxSymbols + 0) w =
          .ok (0 + l, k) :=
        tableWalkLoop_fits l 0 v k 0 w tb hpath₁ hwbit' (by omega) hfits
      have hwalk' : t₁.tableWalkLoop tb tb 0 maxSymbols w = .ok (l, k) := by
        rw [Nat.zero_add] at hwalk
        exact hwalk
      rw [hwalk'] at hent
      have hmk : mkTableEntry l k = .ok e := hent
      obtain ⟨hl0, hlmax, hkinv, hedef⟩ := mkTableEntry_ok hmk
      have hk4096 : k < 4096 := by rw [invalidEdge_eq] at hkinv; omega
      obtain ⟨helen, heidx⟩ := @entry_fields l k hk4096
      rw [← hedef] at helen heidx
      obtain ⟨bs2, hcons, hinv2, hrem2, hdata2, _, _⟩ :=
        BitStream.consume_bits_spec hinv1 hlen (by omega)
      have hdrop : (codeBitsAux l v ++ rest).drop l = rest := by
        have h1 := List.drop_left (codeBitsAux l v) rest
        rwa [codeBitsAux_length] at h1
      have hrem2' : bs2.remBits = rest := by
        rw [hrem2, hrem1, hrem, hdrop]
      refine ⟨bs2, ?_, hinv2, hrem2', by rw [hdata2, hdata1]⟩
      rw [htb]
      simp only [bind_assoc]
      rw [hens]
      simp only [ok_bind]
      rw [hpeek]
      simp only [ok_bind]
      rw [hnext]
      simp only [ok_bind]
      rw [hgetd, helen, hcons]
      simp only [ok_bind, pure_bind]
      rw [heidx]
      rw [decodeLoop_unfold, if_pos hksym]
    · -- the code is deeper than the table: residual tree walk
      push_neg at hfits
      have hpath₁ : codePathB t₁ 0 l v k = true := by
        rw [← codePathB_ext hnodes hnum l 0 v k]
        exact hpath
      have hwbit' : ∀ i, i < tb - 0 → w.testBit i = v.testBit (l - 1 - i) := by
        intro i hi
        exact hwbit i (by omega) (by omega)
      obtain ⟨j', hwalk, hresid⟩ := tableWalkLoop_deep l 0 v k 0 w tb hpath₁
        hwbit' (by omega) (by omega) (by omega)
      have hwalk' : t₁.tableWalkLoop tb tb 0 maxSymbols w =
          .ok (tb, maxSymbols + j') := hwalk
      rw [hwalk'] at hent
      have hmk : mkTableEntry tb (maxSymbols + j') = .ok e := hent
      obtain ⟨htb0, htbmax', hjinv, hedef⟩ := mkTableEntry_ok hmk
      have hj4096 : maxSymbols + j' < 4096 := by
        rw [invalidEdge_eq] at hjinv
        omega
      obtain ⟨helen, heidx⟩ := @entry_fields tb (maxSymbols + j') hj4096
      rw [← hedef] at helen heidx
      obtain ⟨bs2, hcons, hinv2, hrem2, hdata2, _, _⟩ :=
        BitStream.consume_bits_spec hinv1 htbpos hav1
      have hresid' : codePathB t j' (l - tb) v k = true := by
        rw [codePathB_ext hnodes hnum]
        have h0 : l - (tb - 0) = l - tb := by omega
        rw [h0] at hresid
        exact hresid
      have hrem2' : bs2.remBits = codeBitsAux (l - tb) v ++ rest := by
        rw [hrem2, hrem1, hrem, List.drop_append_eq_append_drop,
          codeBitsAux_drop l v tb (by omega), codeBitsAux_length,
          show tb - l = 0 from by omega, List.drop_zero]
      obtain ⟨bs3, hloop, hinv3, hrem3, hdata3⟩ :=
        decodeLoop_spec (l - tb) j' v k decodeFuel bs2 rest hresid' hinv2 hrem2'
          (by rw [decodeFuel_eq]; omega)
      refine ⟨bs3, ?_, hinv3, hrem3, by rw [hdata3, hdata2, hdata1]⟩
      rw [htb]
      simp only [bind_assoc]
      rw [hens]
      simp only [ok_bind]
      rw [hpeek]
      simp only [ok_bind]
      rw [hnext]
      simp only [ok_bind]
      rw [hgetd, helen, hcons]
      simp only [ok_bind, pure_bind]
      rw [heidx]
      exact hloop
  · rw [if_neg hfast]
    have hl576 : l ≤ decodeFuel := by
      rw [decodeFuel_eq]
      omega
    obtain ⟨bs', hloop, hinv', hrem', hdata'⟩ :=
      decodeLoop_spec l 0 v k decodeFuel bs rest hpath hinv hrem hl576
    refine ⟨bs', ?_, hinv', hrem', hdata'⟩
    simp only [pure_bind]
    exact hloop

theorem decodeTreeOnly_spec {codes : List HuffCode} {tb : Nat} {t : HuffTree}
    {k : Nat} {bs : BitStream} {rest : List Bool}
    (hb : make_huffman_tree codes tb = .ok t)
    (hk : k < codes.length) (hlen : 0 < (codes.getD k ⟨0, 0⟩).len)
    (hinv : bs.Inv)
    (hrem : bs.remBits = codeBits (codes.getD k ⟨0, 0⟩) ++ rest) :
    ∃ bs', decodeTreeOnly t bs = .ok (k, bs') ∧ bs'.Inv ∧
      bs'.remBits = rest ∧ bs'.data = bs.data := by
  obtain ⟨hcap, hposn, htb, htbpos, htbmax, hpaths⟩ := make_tree_paths hb
  obtain ⟨t₁, hclen, hadd, htabs⟩ := make_huffman_tree_ok hb
  have hpath := hpaths k hk hlen
  have hl15 : (codes.getD k ⟨0, 0⟩).len ≤ max_bits :=
    addAll_len codes 0 emptyTree t₁ hadd k hk
  rw [max_bits_eq] at hl15
  obtain ⟨bs', hloop, hinv', hrem', hdata'⟩ :=
    decodeLoop_spec (codes.getD k ⟨0, 0⟩).len 0 (codes.getD k ⟨0, 0⟩).value k
      decodeFuel bs rest hpath hinv hrem (by rw [decodeFuel_eq]; omega)
  exact ⟨bs', hloop, hinv', hrem', hdata'⟩

/-! ## Canonical table views -/

theorem assignLoop_length :
    ∀ (L : List Nat) (nc : Nat → Nat), (assignLoop nc L).length = L.length := by
  intro L
  induction L with
  | nil => intro nc; rfl
  | cons l r ih =>
    intro nc
    unfold assignLoop
    by_cases hl : l ≠ 0
    · rw [if_pos hl]
      simp [ih]
    · rw [if_neg hl]
      simp [ih]

theorem assignLoop_len :
    ∀ (L : List Nat) (nc : Nat → Nat) (i : Nat), i < L.length →
      ((assignLoop nc L).getD i ⟨0, 0⟩).len = L.getD i 0 := by
  intro L
  induction L with
  | nil => intro nc i h; simp at h
  | cons l r ih =>
    intro nc i h
    unfold assignLoop
    by_cases hl : l ≠ 0
    · rw [if_pos hl]
      rcases i with _ | i'
      · rfl
      · simp only [List.getD_cons_succ]
        exact ih _ i' (by simpa using h)
    · rw [if_neg hl]
      rcases i with _ | i'
      · simp only [List.getD_cons_zero]
        push_neg at hl
        rw [hl]
      · simp only [List.getD_cons_succ]
        exact ih nc i' (by simpa using h)

/-! ## The packed byte stream delivers exactly the packed bits -/

theorem natBits_zero : ∀ n, natBits n 0 = List.replicate n false := by
  intro n
  induction n with
  | zero => rfl
  | succ m ih => simp [natBits, ih, List.replicate_succ]

theorem natBits_lsbValue_pad :
    ∀ (X : List Bool) (n : Nat), X.length ≤ n →
      natBits n (lsbValue X) = X ++ List.replicate (n - X.length) false := by
  intro X
  induction X with
  | nil =>
    intro n h
    show natBits n 0 = [] ++ List.replicate (n - 0) false
    rw [natBits_zero]
    rfl
  | cons b r ih =>
    intro n h
    rcases n with _ | n'
    · simp at h
    · have hval : lsbValue (b :: r) = (if b then 1 else 0) + 2 * lsbValue r := rfl
      have hmod : lsbValue (b :: r) % 2 = if b then 1 else 0 := by
        rw [hval]
        rcases b with _ | _ <;> simp [Nat.add_mul_mod_self_left]
      have hdiv : lsbValue (b :: r) / 2 = lsbValue r := by
        rw [hval]
        rcases b with _ | _ <;> simp [Nat.add_mul_div_left]
      have hbit : (lsbValue (b :: r)).testBit 0 = b := by
        rw [Nat.testBit_zero, hmod]
        rcases b with _ | _ <;> rfl
      show (lsbValue (b :: r)).testBit 0 ::
          natBits n' (lsbValue (b :: r) / 2) = _
      rw [hdiv, ih n' (by simpa using h), hbit]
      have hlen2 : n' + 1 - (b :: r).length = n' - r.length := by
        simp only [List.length_cons]
        omega
      rw [hlen2]
      rfl

theorem packBitsAux_nil : ∀ fuel, packBitsAux fuel [] = [] := by
  intro fuel
  rcases fuel with _ | f <;> rfl

theorem packBitsAux_lt :
    ∀ (fuel : Nat) (X : List Bool), ∀ B ∈ packBitsAux fuel X, B < 256 := by
  intro fuel
  induction fuel with
  | zero => intro X B hB; simp [packBitsAux] at hB
  | succ f ih =>
    intro X B hB
    rcases X with _ | ⟨b, r⟩
    · rw [packBitsAux_nil] at hB
      simp at hB
    · unfold packBitsAux at hB
      rcases List.mem_cons.mp hB with hB1 | hB2
      · have h1 : ((b :: r).take 8).length ≤ 8 := by
          simp [List.length_take]
        have h2 := lsbValue_lt ((b :: r).take 8)
        have h3 : (2 : Nat) ^ ((b :: r).take 8).length ≤ 2 ^ 8 :=
          Nat.pow_le_pow_right (by omega) h1
        rw [hB1]
        omega
      · exact ih ((b :: r).drop 8) B hB2

theorem packBitsAux_bits :
    ∀ (fuel : Nat) (X : List Bool), X.length ≤ fuel →
      ∃ pad, bytesBits (packBitsAux fuel X) = X ++ pad := by
  intro fuel
  induction fuel with
  | zero =>
    intro X h
    have h0 : X = [] := List.length_eq_zero.mp (by omega)
    subst h0
    exact ⟨[], rfl⟩
  | succ f ih =>
    intro X h
    rcases X with _ | ⟨b, r⟩
    · exact ⟨[], rfl⟩
    · by_cases h8 : (b :: r).length ≤ 8
      · have hdropnil : (b :: r).drop 8 = [] := List.drop_eq_nil_of_le h8
        have htake : (b :: r).take 8 = b :: r := List.take_of_length_le h8
        refine ⟨List.replicate (8 - (b :: r).length) false, ?_⟩
        show bytesBits (lsbValue ((b :: r).take 8) ::
          packBitsAux f ((b :: r).drop 8)) = _
        rw [hdropnil, packBitsAux_nil, htake, bytesBits_cons,
          natBits_lsbValue_pad (b :: r) 8 h8, bytesBits_nil, List.append_nil]
      · push_neg at h8
        rw [List.length_cons] at h8
        obtain ⟨pad, hp⟩ := ih ((b :: r).drop 8) (by
          rw [List.length_drop, List.length_cons]
          rw [List.length_cons] at h
          omega)
        refine ⟨pad, ?_⟩
        show bytesBits (lsbValue ((b :: r).take 8) ::
          packBitsAux f ((b :: r).drop 8)) = _
        rw [bytesBits_cons, hp]
        have htakel : ((b :: r).take 8).length = 8 := by
          rw [List.length_take, List.length_cons]
          omega
        have hnb := natBits_lsbValue ((b :: r).take 8)
        rw [htakel] at hnb
        rw [hnb, ← List.append_assoc, List.take_append_drop]

theorem packBits_bits (X : List Bool) :
    ∃ pad, bytesBits (packBits X) = X ++ pad :=
  packBitsAux_bits X.length X (le_refl _)

theorem packBits_lt (X : List Bool) : ∀ B ∈ packBits X, B < 256 :=
  packBitsAux_lt X.length X

/-! ## Claim theorems -/

/-- C6: for a decoder successfully built from the canonical code table of a
length vector `L` (at the configured table depth `tb`) and a symbol `i`
with `L[i] > 0`, `decode` applied to a byte stream holding exactly the
bits of the code assigned to `i` returns `i`. -/
theorem C6_decode_canonical_code {L : List Nat} {tb : Nat} {t : HuffTree}
    {i : Nat}
    (hbuild : make_huffman_tree (make_huffman_table L) tb = .ok t)
    (hi : i < L.length) (hnz : L.getD i 0 ≠ 0) :
    ∃ bs', decode t (BitStream.mk0 (packBits (codeBits
        ((make_huffman_table L).getD i ⟨0, 0⟩)))) = .ok (i, bs') := by
  have hki : i < (make_huffman_table L).length := by
    rw [make_huffman_table, assignLoop_length]
    exact hi
  have hlen : 0 < ((make_huffman_table L).getD i ⟨0, 0⟩).len := by
    rw [make_huffman_table, assignLoop_len L (nextCode L) i hi]
    omega
  obtain ⟨pad, hpad⟩ :=
    packBits_bits (codeBits ((make_huffman_table L).getD i ⟨0, 0⟩))
  have hinv := BitStream.inv_mk0
    (packBits_lt (codeBits ((make_huffman_table L).getD i ⟨0, 0⟩)))
  have hrem : (BitStream.mk0 (packBits (codeBits
      ((make_huffman_table L).getD i ⟨0, 0⟩)))).remBits =
      codeBits ((make_huffman_table L).getD i ⟨0, 0⟩) ++ pad := by
    show bytesBits (packBits (codeBits
      ((make_huffman_table L).getD i ⟨0, 0⟩))) = _
    exact hpad
  obtain ⟨bs', hdec, _, _, _⟩ := decode_spec hbuild hki hlen hinv hrem
  exact ⟨bs', hdec⟩

theorem C6_decode_canonical_code_witness :
    ∃ t, make_huffman_tree (make_huffman_table [1, 1]) 1 = .ok t ∧
      ∃ bs', decode t (BitStream.mk0 (packBits (codeBits
        ((make_huffman_table [1, 1]).getD 1 ⟨0, 0⟩)))) = .ok (1, bs') := by
  have hb : make_huffman_tree (make_huffman_table [1, 1]) 1 =
      .ok ((make_huffman_tree (make_huffman_table [1, 1]) 1).toOption.getD
        emptyTree) := by decide
  exact ⟨_, hb, C6_decode_canonical_code hb (by decide) (by decide)⟩

/-- C10 (implicit): on a decoder built from any successfully inserted code
set, and a stream beginning with the bits of an assigned code, the hybrid
`decode` (table peek + consume + residual walk) and the pure bit-by-bit
root walk return the same symbol and leave the same remaining bits. -/
theorem C10_hybrid_decode_refines_tree_walk {codes : List HuffCode} {tb : Nat}
    {t : HuffTree} {k : Nat} {bs : BitStream} {rest : List Bool}
    (hb : make_huffman_tree codes tb = .ok t)
    (hk : k < codes.length) (hlen : 0 < (codes.getD k ⟨0, 0⟩).len)
    (hinv : bs.Inv)
    (hrem : bs.remBits = codeBits (codes.getD k ⟨0, 0⟩) ++ rest) :
    ∃ bs₁ bs₂, decode t bs = .ok (k, bs₁) ∧
      decodeTreeOnly t bs = .ok (k, bs₂) ∧
      bs₁.remBits = bs₂.remBits ∧ bs₁.remBits = rest := by
  obtain ⟨bs₁, h1, _, hr1, _⟩ := decode_spec hb hk hlen hinv hrem
  obtain ⟨bs₂, h2, _, hr2, _⟩ := decodeTreeOnly_spec hb hk hlen hinv hrem
  exact ⟨bs₁, bs₂, h1, h2, by rw [hr1, hr2], hr1⟩

theorem C10_hybrid_decode_refines_tree_walk_witness :
    ∃ t, make_huffman_tree [⟨1, 0⟩, ⟨2, 2⟩, ⟨2, 3⟩] 2 = .ok t ∧
      ∃ bs₁ bs₂, decode t (BitStream.mk0 [1]) = .ok (1, bs₁) ∧
        decodeTreeOnly t (BitStream.mk0 [1]) = .ok (1, bs₂) ∧
        bs₁.remBits = bs₂.remBits ∧
        bs₁.remBits = [false, false, false, false, false, false] := by
  have hb : make_huffman_tree [⟨1, 0⟩, ⟨2, 2⟩, ⟨2, 3⟩] 2 =
      .ok ((make_huffman_tree [⟨1, 0⟩, ⟨2, 2⟩, ⟨2, 3⟩] 2).toOption.getD
        emptyTree) := by decide
  exact ⟨_, hb, C10_hybrid_decode_refines_tree_walk hb (by decide) (by decide)
    (BitStream.inv_mk0 (by decide)) (by decide)⟩
